import Mathlib

/-!
Shallow embedding of the analytics core of the weightwatch repository
(`src/utils/dateUtils.ts`, `src/services/dataService.ts`, the statistics module,
and the moving-average / trend module), together with proofs about the claims
of the specification.

Modelling conventions, used consistently below:

* JavaScript numbers are modelled as exact rationals (`ℚ`).  Floating-point
  rounding, `NaN` and `±Infinity` are outside the model; every place where the
  source can produce `NaN` (unparseable dates, division by zero) is modelled
  explicitly with `Option` or noted in the doc comment of the definition.
* JavaScript `Date` values are modelled as integer milliseconds since the Unix
  epoch.  A `Date` is valid iff `|ms| ≤ 8.64e15` (the ECMAScript bound); an
  invalid date is `Option.none`.
* The local time zone of the runtime is modelled as UTC, so local-time and
  UTC-time computations coincide.
* `Date`-string parsing is modelled on the ISO grammar that both ECMAScript and
  the date-fns helpers define; implementation-defined heuristics of `new
  Date(string)` for non-ISO strings are modelled as parse failures.
-/

namespace Weightwatch

/-- The ECMAScript bound on valid `Date` time values: `8.64e15` milliseconds. -/
def msBound : ℕ := 8640000000000000

/-- JavaScript `Math.round`: round half toward positive infinity. -/
def jsRound (q : ℚ) : ℤ := ⌊q + 1/2⌋

/-- Truncation toward zero, as applied by `TimeClip` / `ToIntegerOrInfinity`
when a number is used as a millisecond time value. -/
def jsTrunc (q : ℚ) : ℤ := if 0 ≤ q then ⌊q⌋ else ⌈q⌉

/-- Whether a year is a Gregorian leap year. -/
def isLeap (y : ℤ) : Bool := (Int.emod y 4 == 0 && Int.emod y 100 != 0) || Int.emod y 400 == 0

/-- Number of days of month `m` (1–12) in year `y`. -/
def daysInMonth (y : ℤ) (m : ℕ) : ℕ :=
  if m = 2 then (if isLeap y then 29 else 28)
  else if m = 4 ∨ m = 6 ∨ m = 9 ∨ m = 11 then 30
  else 31

/-- Days since the Unix epoch of the civil date `y-m-d` (proleptic Gregorian
calendar, Hinnant's `days_from_civil` algorithm). -/
def civilToDays (y : ℤ) (m d : ℕ) : ℤ :=
  let y' : ℤ := if m ≤ 2 then y - 1 else y
  let era : ℤ := Int.fdiv y' 400
  let yoe : ℕ := (y' - era * 400).toNat
  let mp : ℕ := (m + 9) % 12
  let doy : ℕ := (153 * mp + 2) / 5 + (d - 1)
  let doe : ℕ := yoe * 365 + yoe / 4 - yoe / 100 + doy
  era * 146097 + (doe : ℤ) - 719468

/-- Civil date `(year, month, day)` of a day count since the Unix epoch
(Hinnant's `civil_from_days` algorithm). -/
def daysToCivil (z : ℤ) : ℤ × ℕ × ℕ :=
  let z' : ℤ := z + 719468
  let era : ℤ := Int.fdiv z' 146097
  let doe : ℕ := (z' - era * 146097).toNat
  let yoe : ℕ := (doe - doe / 1460 + doe / 36524 - doe / 146096) / 365
  let doy : ℕ := doe - (365 * yoe + yoe / 4 - yoe / 100)
  let mp : ℕ := (5 * doy + 2) / 153
  let d : ℕ := doy - (153 * mp + 2) / 5 + 1
  let m : ℕ := if mp < 10 then mp + 3 else mp - 9
  ((if m ≤ 2 then (yoe : ℤ) + era * 400 + 1 else (yoe : ℤ) + era * 400), m, d)

/-- Day index (since the epoch) of a millisecond timestamp, flooring. -/
def dayOfMs (ms : ℤ) : ℤ := Int.fdiv ms 86400000

/-- Millisecond of the (UTC) day of a timestamp; always in `[0, 86400000)`. -/
def msOfDay (ms : ℤ) : ℕ := (Int.emod ms 86400000).toNat

/-- Zero-pad a natural number to width `w`. -/
def padNat (n w : ℕ) : String :=
  let s := toString n
  String.mk (List.replicate (w - s.length) '0') ++ s

/-- Render a year for a date string: 4 digits, with a sign for negative years. -/
def formatYear4 (y : ℤ) : String :=
  if y < 0 then "-" ++ padNat y.natAbs 4 else padNat y.toNat 4

/-- Model of date-fns `format(date, 'yyyy-MM-dd')` in the UTC-as-local model. -/
def formatYyyyMmDd (ms : ℤ) : String :=
  let c := daysToCivil (dayOfMs ms)
  formatYear4 c.1 ++ "-" ++ padNat c.2.1 2 ++ "-" ++ padNat c.2.2 2

/-- English three-letter month abbreviations used by date-fns token `MMM`. -/
def monthName (m : ℕ) : String :=
  (["Jan", "Feb", "Mar", "Apr", "May", "Jun",
    "Jul", "Aug", "Sep", "Oct", "Nov", "Dec"]).getD (m - 1) ""

/-- Model of date-fns `format(date, 'MMM dd, yyyy')` in the UTC-as-local model. -/
def formatMMMDdYyyy (ms : ℤ) : String :=
  let c := daysToCivil (dayOfMs ms)
  monthName c.2.1 ++ " " ++ padNat c.2.2 2 ++ ", " ++ formatYear4 c.1

/-- Model of `Date.prototype.toISOString`: `YYYY-MM-DDTHH:mm:ss.sssZ`
(expanded six-digit years outside `[0, 9999]`, as in ECMAScript). -/
def toISOStringModel (ms : ℤ) : String :=
  let c := daysToCivil (dayOfMs ms)
  let year := if 0 ≤ c.1 ∧ c.1 ≤ 9999 then padNat c.1.toNat 4
    else if c.1 < 0 then "-" ++ padNat c.1.natAbs 6 else "+" ++ padNat c.1.toNat 6
  let tod := msOfDay ms
  year ++ "-" ++ padNat c.2.1 2 ++ "-" ++ padNat c.2.2 2 ++
    "T" ++ padNat (tod / 3600000) 2 ++ ":" ++ padNat (tod % 3600000 / 60000) 2 ++
    ":" ++ padNat (tod % 60000 / 1000) 2 ++ "." ++ padNat (tod % 1000) 3 ++ "Z"

/-- Model of date-fns `differenceInDays`: the number of full days between two
timestamps, truncated toward zero (exact in a fixed-offset time zone). -/
def differenceInDays (a b : ℤ) : ℤ := Int.tdiv (a - b) 86400000

/-- Model of date-fns `addDays` followed by a validity check: the resulting
`Date` is invalid (`none`) outside the ECMAScript time-value range. -/
def addDaysChecked (ms n : ℤ) : Option ℤ :=
  let r := ms + n * 86400000
  if r.natAbs ≤ msBound then some r else none

/-! ### Character-level string helpers

The source manipulates JavaScript strings with `trim`, `split`, `includes` and
a regular expression.  They are modelled on the character list underlying a
Lean `String`. -/

/-- JavaScript `String.prototype.trim` on a character list. -/
def trimChars (l : List Char) : List Char :=
  ((l.dropWhile Char.isWhitespace).reverse.dropWhile Char.isWhitespace).reverse

/-- JavaScript `split` with a single-character separator. -/
def splitOnChar (sep : Char) (l : List Char) : List (List Char) :=
  l.foldr
    (fun c acc =>
      if c == sep then [] :: acc
      else match acc with
        | [] => [[c]]
        | g :: gs => (c :: g) :: gs)
    [[]]

/-- Numeric value of a digit list (most significant first). -/
def digitsVal (l : List Char) : ℕ := l.foldl (fun a c => a * 10 + (c.toNat - 48)) 0

/-- JavaScript `Number(part)` restricted to the all-digit strings produced by
the time-only regular expression; `none` models `NaN`. -/
def charsToNat? (l : List Char) : Option ℕ :=
  if l ≠ [] ∧ l.all Char.isDigit then some (digitsVal l) else none

/-- Matcher for the source's `TIME_ONLY_RE` regular expression
`^\d{1,2}:\d{2}(:\d{2})?$`: the optional seconds group. -/
def timeOnlySeconds (l : List Char) : Bool :=
  match l with
  | [c, s1, s2] => c == ':' && s1.isDigit && s2.isDigit
  | _ => false

/-- Matcher for `TIME_ONLY_RE`: the `:\d{2}` minutes part plus optional seconds. -/
def timeOnlyMinutes (l : List Char) : Bool :=
  match l with
  | c :: m1 :: m2 :: rest =>
      c == ':' && m1.isDigit && m2.isDigit && (rest.isEmpty || timeOnlySeconds rest)
  | _ => false

/-- Matcher for the full `TIME_ONLY_RE` regular expression. -/
def isTimeOnly (l : List Char) : Bool :=
  match l with
  | c1 :: c2 :: rest =>
      if c1.isDigit && c2.isDigit then timeOnlyMinutes rest
      else c1.isDigit && timeOnlyMinutes (c2 :: rest)
  | _ => false

/-- Consume at most `n` leading digits (greedy), returning them and the rest. -/
def takeDigitsUpTo : ℕ → List Char → List Char × List Char
  | 0, l => ([], l)
  | _ + 1, [] => ([], [])
  | n + 1, c :: cs =>
      if c.isDigit then
        let r := takeDigitsUpTo n cs
        (c :: r.1, r.2)
      else ([], c :: cs)

/-- Consume exactly `n` leading digits, or fail. -/
def takeDigitsExactly (n : ℕ) (l : List Char) : Option (ℕ × List Char) :=
  let r := takeDigitsUpTo n l
  if r.1.length = n then some (digitsVal r.1, r.2) else none

/-- Parse the optional time-of-day part of an ISO string
(`HH:mm`, `HH:mm:ss`, `HH:mm:ss.S{1,3}`, optionally followed by `Z`),
returning its millisecond value. -/
def parseIsoTime (l : List Char) : Option ℕ := do
  let (h, r1) ← takeDigitsExactly 2 l
  match r1 with
  | ':' :: r2 => do
    let (mi, r3) ← takeDigitsExactly 2 r2
    let sec : Option (ℕ × ℕ × List Char) :=
      match r3 with
      | ':' :: r4 =>
        match takeDigitsExactly 2 r4 with
        | none => none
        | some (s, r5) =>
          match r5 with
          | '.' :: r6 =>
            let f := takeDigitsUpTo 3 r6
            if f.1.length = 0 then none
            else some (s, digitsVal f.1 * (if f.1.length = 1 then 100 else if f.1.length = 2 then 10 else 1), f.2)
          | _ => some (s, 0, r5)
      | _ => none
    let (s, milli, rest) :=
      match sec with
      | some v => v
      | none => (0, 0, r3)
    let rest' := if rest == ['Z'] then [] else rest
    if rest' = [] ∧ h ≤ 23 ∧ mi ≤ 59 ∧ s ≤ 59 then
      some (h * 3600000 + mi * 60000 + s * 1000 + milli)
    else none
  | _ => none

/-- Shared model of the ISO-8601 date(-time) grammar accepted both by
date-fns `parseISO` and by the ECMAScript Date Time String Format:
`YYYY[-MM[-DD[THH:mm[:ss[.sss]][Z]]]]`, with calendar validation.
Implementation-defined heuristics of `new Date(string)` beyond this grammar
are modelled as failures.  Returns the timestamp in the UTC-as-local model. -/
def parseIsoChars (l : List Char) : Option ℤ := do
  let (y, r1) ← takeDigitsExactly 4 l
  let dateMs : Option (ℤ × List Char) :=
    match r1 with
    | [] => some (civilToDays (y : ℤ) 1 1 * 86400000, [])
    | '-' :: r2 =>
      match takeDigitsExactly 2 r2 with
      | none => none
      | some (m, r3) =>
        if 1 ≤ m ∧ m ≤ 12 then
          match r3 with
          | [] => some (civilToDays (y : ℤ) m 1 * 86400000, [])
          | '-' :: r4 =>
            match takeDigitsExactly 2 r4 with
            | none => none
            | some (d, r5) =>
              if 1 ≤ d ∧ d ≤ daysInMonth (y : ℤ) m then
                some (civilToDays (y : ℤ) m d * 86400000, r5)
              else none
          | _ => none
        else none
    | _ => none
  match dateMs with
  | none => none
  | some (base, rest) =>
    match rest with
    | [] => some base
    | 'T' :: tr =>
      match parseIsoTime tr with
      | some tod => some (base + (tod : ℤ))
      | none => none
    | _ => none

/-- Model of `new Date(string)`: the ECMAScript ISO grammar (with V8's
trimming of surrounding whitespace); non-ISO inputs, whose handling is
implementation-defined, are modelled as invalid. -/
def jsNewDate (s : String) : Option ℤ := parseIsoChars (trimChars s.data)

/-- Parse `1`–`2`-digit, separator, `1`–`2`-digit, separator, `1`–`4`-digit as
day, month, year — the behaviour of date-fns `parse` with the formats
`dd.MM.yyyy`, `dd-MM-yyyy`, `dd/MM/yyyy` and `d/M/yyyy` (date-fns numeric
tokens match one up to the token width digits), with calendar validation and
the reference time-of-day cleared. -/
def parseSepDMY (sep : Char) (l : List Char) : Option ℤ :=
  let d := takeDigitsUpTo 2 l
  if d.1.length = 0 then none
  else match d.2 with
    | c1 :: r1 =>
      if c1 == sep then
        let m := takeDigitsUpTo 2 r1
        if m.1.length = 0 then none
        else match m.2 with
          | c2 :: r2 =>
            if c2 == sep then
              let y := takeDigitsUpTo 4 r2
              if y.1.length = 0 ∨ y.2 ≠ [] then none
              else
                let yv := digitsVal y.1
                let mv := digitsVal m.1
                let dv := digitsVal d.1
                if 1 ≤ mv ∧ mv ≤ 12 ∧ 1 ≤ dv ∧ dv ≤ daysInMonth (yv : ℤ) mv then
                  some (civilToDays (yv : ℤ) mv dv * 86400000)
                else none
            else none
          | [] => none
      else none
    | [] => none

/-- date-fns `parse` with format `yyyy-MM-dd` (the last entry of the source's
`DATE_FORMATS`), with the same digit-width conventions as `parseSepDMY`. -/
def parseYMD (l : List Char) : Option ℤ :=
  let y := takeDigitsUpTo 4 l
  if y.1.length = 0 then none
  else match y.2 with
    | '-' :: r1 =>
      let m := takeDigitsUpTo 2 r1
      if m.1.length = 0 then none
      else match m.2 with
        | '-' :: r2 =>
          let d := takeDigitsUpTo 2 r2
          if d.1.length = 0 ∨ d.2 ≠ [] then none
          else
            let yv := digitsVal y.1
            let mv := digitsVal m.1
            let dv := digitsVal d.1
            if 1 ≤ mv ∧ mv ≤ 12 ∧ 1 ≤ dv ∧ dv ≤ daysInMonth (yv : ℤ) mv then
              some (civilToDays (yv : ℤ) mv dv * 86400000)
            else none
        | _ => none
    | _ => none

/-- The source's `DATE_FORMATS` fallback loop: try the five explicit date-fns
formats in order, returning the first valid parse. -/
def parseWithFormats (l : List Char) : Option ℤ :=
  match parseSepDMY '.' l with
  | some ms => some ms
  | none =>
    match parseSepDMY '-' l with
    | some ms => some ms
    | none =>
      match parseSepDMY '/' l with
      | some ms => some ms
      | none =>
        match parseSepDMY '/' l with
        | some ms => some ms
        | none => parseYMD l

/-! ### `parseDateFlexible` and its callers (`src/utils/dateUtils.ts`) -/

/-- A JavaScript value as seen by `parseDateFlexible` and
`normalizeRecordedAt`: `null`/`undefined`, a finite number, a string, or a
`Date` object (`none` milliseconds = an Invalid Date). -/
inductive JSVal where
  | vNull
  | vUndef
  | vNum (q : ℚ)
  | vStr (s : String)
  | vDate (ms : Option ℤ)
deriving Repr, DecidableEq

/-- JavaScript falsiness of a `JSVal` (the source's `!value` test); `NaN`,
which is also falsy, is outside the rational model of numbers. -/
def jsFalsy : JSVal → Bool
  | .vNull => true
  | .vUndef => true
  | .vNum q => q == 0
  | .vStr s => s == ""
  | .vDate _ => false

/-- The time-only branch of `parseDateFlexible`: split on `:`, convert the
parts with `Number`, and `setHours(hours, minutes, seconds || 0, 0)` on a copy
of the base date (local time = UTC in the model); `none` models both the `NaN`
check and an out-of-range result. -/
def timeOnlyMs (base : ℤ) (t : List Char) : Option ℤ :=
  let parts := splitOnChar ':' t
  match charsToNat? (parts.getD 0 []), charsToNat? (parts.getD 1 []) with
  | some h, some m =>
    let s : ℕ := (charsToNat? (parts.getD 2 [])).getD 0
    let ms := base - Int.emod base 86400000 + (h : ℤ) * 3600000 + (m : ℤ) * 60000 + (s : ℤ) * 1000
    if ms.natAbs ≤ msBound then some ms else none
  | _, _ => none

/-- Model of `parseDateFlexible(value, referenceDate?)` from
`src/utils/dateUtils.ts`.  `now` is the implicit wall clock (`new Date()`),
made explicit for determinism.  Returns the parsed timestamp, `none` for the
source's `null`. -/
def parseDateFlexible (now : ℤ) (referenceDate : Option ℤ) (v : JSVal) : Option ℤ :=
  if jsFalsy v then none
  else match v with
  | .vDate ms => ms
  | .vNum q =>
    let excel := jsRound ((q - 25569) * 86400 * 1000)
    if excel.natAbs ≤ msBound then some excel
    else if |q| ≤ (msBound : ℚ) then some (jsTrunc q) else none
  | .vStr s =>
    let trimmed := trimChars s.data
    if trimmed = [] then none
    else if isTimeOnly trimmed then
      timeOnlyMs (referenceDate.getD now) trimmed
    else
      let afterT : Option ℤ :=
        if trimmed.contains 'T' then parseIsoChars trimmed else none
      match afterT with
      | some ms => some ms
      | none =>
        let base := (splitOnChar ' ' trimmed).getD 0 []
        match parseIsoChars base with
        | some ms => some ms
        | none =>
          match parseWithFormats base with
          | some ms => some ms
          | none => parseIsoChars base
  | _ => none

/-- `toISODate(value)` from `src/utils/dateUtils.ts`: flexible parse followed
by `format(parsed, 'yyyy-MM-dd')`; `null` propagates. -/
def toISODate (now : ℤ) (v : JSVal) : Option String :=
  (parseDateFlexible now none v).map formatYyyyMmDd

/-- `normalizeRecordedAt(dateIso, value)` from `src/utils/dateUtils.ts`.
Returns `none` for the source's `undefined`. -/
def normalizeRecordedAt (now : ℤ) (dateIso : String) (v : JSVal) : Option String :=
  if jsFalsy v then none
  else match v with
  | .vStr s =>
    let trimmed := trimChars s.data
    if trimmed = [] then none
    else if trimmed.contains 'T' then
      match parseDateFlexible now none (.vStr (String.mk trimmed)) with
      | some ms => some (toISOStringModel ms)
      | none => some (String.mk trimmed)
    else if isTimeOnly trimmed then
      some (dateIso ++ "T" ++ String.mk trimmed)
    else
      (parseDateFlexible now none (.vStr s)).map toISOStringModel
  | _ => (parseDateFlexible now none v).map toISOStringModel

/-! ### Data model (`src/types/index.ts`) -/

/-- A `WeightEntry` record.  `recordedAt?` is an optional string. -/
structure WeightEntry where
  date : String
  weekDay : String
  weight : ℚ
  changePercent : ℚ
  changeKg : ℚ
  dailyChange : ℚ
  recordedAt : Option String := none
deriving Repr, DecidableEq, Inhabited

/-- The `TargetData` goal record. -/
structure TargetData where
  startDate : String
  startWeight : ℚ
  endDate : String
  endWeight : ℚ
  totalDuration : ℚ
  totalKg : ℚ
  height : ℚ
deriving Repr, DecidableEq, Inhabited

/-! ### Sorting by flexibly parsed date

Every service sorts entries with the comparator
`(a, b) => (parseDateFlexible(a.date) ?? new Date(a.date)).getTime() - (…b…)`.
`Array.prototype.sort` is modelled as a stable insertion sort; a comparison
in which either key is the `NaN` of an unparseable date is treated as
"keep the relative order", which is how a stable sort behaves on comparator
results that are neither positive nor negative. -/

/-- The sort/derive key of an entry date:
`parseDateFlexible(date) ?? new Date(date)`, then `getTime()`;
`none` models the `NaN` of an Invalid Date. -/
def entryTime (now : ℤ) (d : String) : Option ℤ :=
  match parseDateFlexible now none (.vStr d) with
  | some ms => some ms
  | none => jsNewDate d

/-- Comparator outcome "`a` must come after `b`": the comparator returned a
positive number.  `NaN` comparisons (either key missing) are not positive. -/
def timeGt : Option ℤ → Option ℤ → Bool
  | some a, some b => a > b
  | _, _ => false

/-- Insert `x` into `acc` before the first element that must come after it
(stable: `x`, arriving later, goes after every tie). -/
def insertSorted (gt : α → α → Bool) (x : α) : List α → List α
  | [] => [x]
  | y :: ys => if gt y x then x :: y :: ys else y :: insertSorted gt x ys

/-- Stable sort model of `Array.prototype.sort(comparator)`. -/
def jsSortBy (gt : α → α → Bool) (l : List α) : List α :=
  l.foldl (fun acc x => insertSorted gt x acc) []

/-- The entry-sort comparator used by `recalculateEntries`,
`calculateMovingAverages` and `analyzeTrend`. -/
def entryGt (now : ℤ) (a b : WeightEntry) : Bool :=
  timeGt (entryTime now a.date) (entryTime now b.date)

/-- `[...entries].sort(comparator)` over entry dates. -/
def sortEntries (now : ℤ) (entries : List WeightEntry) : List WeightEntry :=
  jsSortBy (entryGt now) entries

/-! ### Entry derivation (`src/services/dataService.ts`) -/

/-- `calculateDerivedFields(entry, previousEntry)`.  The day count is
`Math.max(1, Math.floor((current - prev) / 86400000))`; when either date is
unparseable the source computes with `NaN` milliseconds, so the day count and
`dailyChange` are `NaN` — outside the rational model this day count is
modelled as the floor value `1` (no claim depends on derived fields of
undateable entries). -/
def calculateDerivedFields (now : ℤ) (entry : WeightEntry) :
    Option WeightEntry → WeightEntry
  | none =>
    { entry with changePercent := 0, changeKg := 0, dailyChange := 0 }
  | some prev =>
    let changeKg := entry.weight - prev.weight
    let changePercent := changeKg / prev.weight * 100
    let daysDiff : ℚ :=
      match entryTime now entry.date, entryTime now prev.date with
      | some c, some p => max 1 (⌊((c - p : ℤ) : ℚ) / 86400000⌋ : ℚ)
      | _, _ => 1
    { entry with
        changePercent := changePercent
        changeKg := changeKg
        dailyChange := changeKg / daysDiff }

/-- The `sorted.map((entry, index) => calculateDerivedFields(entry,
index > 0 ? sorted[index-1] : null))` loop, carrying the previous raw sorted
entry through the list. -/
def deriveList (now : ℤ) : Option WeightEntry → List WeightEntry → List WeightEntry
  | _, [] => []
  | prev, e :: rest => calculateDerivedFields now e prev :: deriveList now (some e) rest

/-- `recalculateEntries(entries)`: sort chronologically, then recompute every
derived field against the previous sorted entry. -/
def recalculateEntries (now : ℤ) (entries : List WeightEntry) : List WeightEntry :=
  deriveList now none (sortEntries now entries)

/-! ### BMI (`bmiUtils`) -/

/-- A row of the static `BMI_CATEGORIES` table. -/
structure BMICategoryRow where
  category : String
  min : ℚ
  max : ℚ
  color : String
deriving Repr, DecidableEq

/-- The static ordered `BMI_CATEGORIES` table. -/
def BMI_CATEGORIES : List BMICategoryRow :=
  [⟨"Underweight", 0, 18.5, "#7AA2C7"⟩,
   ⟨"Normal", 18.5, 24.9, "#7FB38A"⟩,
   ⟨"Overweight", 25, 29.9, "#F2CC8F"⟩,
   ⟨"Obese", 30, 39.9, "#E07A5F"⟩,
   ⟨"Extremely Obese", 40, 100, "#B55A4A"⟩]

/-- `calculateBMI(weightKg, heightCm)`. -/
def calculateBMI (weightKg heightCm : ℚ) : ℚ :=
  if weightKg ≤ 0 ∨ heightCm ≤ 0 then 0
  else
    let heightM := heightCm / 100
    weightKg / (heightM * heightM)

/-- The loop body of `getBMICategory`: a singleton list is the last category
(tested only against its lower bound); every earlier category is tested as a
half-open interval; falling off the loop yields `"Unknown"`. -/
def getBMICategoryAux (bmi : ℚ) : List BMICategoryRow → String
  | [] => "Unknown"
  | [cat] => if bmi ≥ cat.min then cat.category else "Unknown"
  | cat :: rest =>
    if bmi ≥ cat.min ∧ bmi < cat.max then cat.category else getBMICategoryAux bmi rest

/-- `getBMICategory(bmi)`. -/
def getBMICategory (bmi : ℚ) : String := getBMICategoryAux bmi BMI_CATEGORIES

/-! ### Statistics (`calculateStatistics` and helpers) -/

/-- The `current` block of a `Statistics` value. -/
structure CurrentStats where
  weight : ℚ
  bmi : ℚ
  bmiCategory : String
deriving Repr, DecidableEq, Inhabited

/-- The `progress` block of a `Statistics` value. -/
structure ProgressStats where
  totalLost : ℚ
  percentageComplete : ℚ
  daysElapsed : ℤ
  daysRemaining : ℤ
  remaining : ℚ
deriving Repr, DecidableEq, Inhabited

/-- The `averages` block of a `Statistics` value. -/
structure AverageStats where
  daily : ℚ
  weekly : ℚ
  monthly : ℚ
deriving Repr, DecidableEq, Inhabited

/-- The `target` block of a `Statistics` value. -/
structure TargetStats where
  requiredDailyLoss : ℚ
  requiredWeeklyLoss : ℚ
  projectedEndDate : String
  onTrack : Bool
  daysAheadBehind : ℚ
deriving Repr, DecidableEq, Inhabited

/-- The `performance.bestDay` record. -/
structure BestDay where
  date : String
  loss : ℚ
deriving Repr, DecidableEq, Inhabited

/-- The `performance.bestWeek` record. -/
structure BestWeek where
  weekStart : String
  loss : ℚ
deriving Repr, DecidableEq, Inhabited

/-- The `performance` block of a `Statistics` value. -/
structure PerformanceStats where
  bestDay : BestDay
  bestWeek : BestWeek
  longestStreak : ℕ
deriving Repr, DecidableEq, Inhabited

/-- The `Statistics` snapshot. -/
structure Statistics where
  current : CurrentStats
  progress : ProgressStats
  averages : AverageStats
  target : TargetStats
  performance : PerformanceStats
deriving Repr, DecidableEq, Inhabited

/-- The per-entry map of `calculateStatistics`: extend an entry with its
flexibly parsed date object (`none` drops the entry in the filter below). -/
def statsPair (now : ℤ) (e : WeightEntry) : Option (WeightEntry × ℤ) :=
  (parseDateFlexible now none (.vStr e.date)).map fun t => (e, t)

/-- The sorted working list of `calculateStatistics`: extend each entry with
its flexibly parsed date, drop entries whose date fails to parse, and sort by
the parsed time (all keys are valid here, so the comparator is total). -/
def statsSorted (now : ℤ) (entries : List WeightEntry) : List (WeightEntry × ℤ) :=
  jsSortBy (fun a b => a.2 > b.2) (entries.filterMap (statsPair now))

/-- A `WeeklyData` bucket of `groupEntriesByWeek`. -/
structure WeeklyData where
  startDate : String
  totalLoss : ℚ
  entries : List WeightEntry
deriving Repr, DecidableEq, Inhabited

/-- Close the current bucket of `groupEntriesByWeek` (push it if non-empty). -/
def pushWeek (weeks : List WeeklyData) (weekStart : Option String)
    (currentWeek : List WeightEntry) : List WeeklyData :=
  match currentWeek with
  | [] => weeks
  | w0 :: rest =>
    weeks ++ [{ startDate := weekStart.getD ""
                totalLoss := w0.weight - ((w0 :: rest).getLast (by simp)).weight
                entries := w0 :: rest }]

/-- The loop of `groupEntriesByWeek`, with state
(accumulated weeks, current bucket, current bucket start date). -/
def groupWeekLoop (now : ℤ) :
    List WeightEntry → List WeeklyData → List WeightEntry → Option String →
    List WeeklyData
  | [], weeks, currentWeek, weekStart => pushWeek weeks weekStart currentWeek
  | entry :: rest, weeks, currentWeek, weekStart =>
    let weekStartDate := match weekStart with
      | some ws => parseDateFlexible now none (.vStr ws)
      | none => none
    let entryDate := parseDateFlexible now none (.vStr entry.date)
    match weekStartDate, entryDate with
    | some wsd, some ed =>
      if differenceInDays ed wsd ≥ 7 then
        groupWeekLoop now rest (pushWeek weeks weekStart currentWeek) [entry]
          (some entry.date)
      else
        groupWeekLoop now rest weeks (currentWeek ++ [entry]) weekStart
    | _, _ => groupWeekLoop now rest weeks currentWeek weekStart

/-- `groupEntriesByWeek(entries)`: greedy 7-day bucketing starting at the
first entry's date. -/
def groupEntriesByWeek (now : ℤ) (entries : List WeightEntry) : List WeeklyData :=
  groupWeekLoop now entries [] [] ((entries.head?).map (·.date))

/-- The weight-loss streak loop of `calculateStatistics`: the longest run of
consecutive sorted entries whose weight strictly decreases. -/
def lossStreakAux : ℚ → List ℚ → ℕ → ℕ → ℕ
  | _, [], _, longest => longest
  | prev, w :: ws, current, longest =>
    if w < prev then lossStreakAux w ws (current + 1) (max longest (current + 1))
    else lossStreakAux w ws 0 longest

/-- `longestStreak` over the sorted weights. -/
def longestLossStreak : List ℚ → ℕ
  | [] => 0
  | w :: ws => lossStreakAux w ws 0 0

/-- The `bestDay` reduction step. -/
def bestDayStep (best : BestDay) (e : WeightEntry × ℤ) : BestDay :=
  if e.1.dailyChange < best.loss then ⟨e.1.date, e.1.dailyChange⟩ else best

/-- The source's `lastEntry`: the last element of the non-empty sorted list. -/
def statsLast (e0 : WeightEntry × ℤ) (rest : List (WeightEntry × ℤ)) :
    WeightEntry × ℤ :=
  (e0 :: rest).getLast (by simp)

/-- The source's `startDate`: the parsed goal start date, defaulting to the
first sorted entry's date object. -/
def statsStartDate (now : ℤ) (t : TargetData) (e0 : WeightEntry × ℤ) : ℤ :=
  (parseDateFlexible now none (.vStr t.startDate)).getD e0.2

/-- The source's `endDate`: the parsed goal end date, defaulting to the last
sorted entry's date object. -/
def statsEndDate (now : ℤ) (t : TargetData) (e0 : WeightEntry × ℤ)
    (rest : List (WeightEntry × ℤ)) : ℤ :=
  (parseDateFlexible now none (.vStr t.endDate)).getD (statsLast e0 rest).2

/-- The source's `daysElapsed`. -/
def statsDaysElapsed (now : ℤ) (t : TargetData) (e0 : WeightEntry × ℤ)
    (rest : List (WeightEntry × ℤ)) : ℤ :=
  differenceInDays (statsLast e0 rest).2 (statsStartDate now t e0)

/-- The source's `daysRemaining`. -/
def statsDaysRemaining (now : ℤ) (t : TargetData) (e0 : WeightEntry × ℤ)
    (rest : List (WeightEntry × ℤ)) : ℤ :=
  differenceInDays (statsEndDate now t e0 rest) (statsLast e0 rest).2

/-- The source's `dailyAvg`: `totalLost / Math.max(daysElapsed, 1)`. -/
def statsDailyAvg (now : ℤ) (t : TargetData) (e0 : WeightEntry × ℤ)
    (rest : List (WeightEntry × ℤ)) : ℚ :=
  (t.startWeight - (statsLast e0 rest).1.weight) /
    max ((statsDaysElapsed now t e0 rest : ℤ) : ℚ) 1

/-- The source's `requiredDailyLoss`: `remaining / Math.max(daysRemaining, 1)`. -/
def statsRequiredDailyLoss (now : ℤ) (t : TargetData) (e0 : WeightEntry × ℤ)
    (rest : List (WeightEntry × ℤ)) : ℚ :=
  ((statsLast e0 rest).1.weight - t.endWeight) /
    max ((statsDaysRemaining now t e0 rest : ℤ) : ℚ) 1

/-- The source's `daysNeeded`: `remaining / Math.max(dailyAvg, 0.01)`. -/
def statsDaysNeeded (now : ℤ) (t : TargetData) (e0 : WeightEntry × ℤ)
    (rest : List (WeightEntry × ℤ)) : ℚ :=
  ((statsLast e0 rest).1.weight - t.endWeight) /
    max (statsDailyAvg now t e0 rest) 0.01

/-- The source's `weeklyData`. -/
def statsWeeklyData (now : ℤ) (e0 : WeightEntry × ℤ)
    (rest : List (WeightEntry × ℤ)) : List WeeklyData :=
  groupEntriesByWeek now ((e0 :: rest).map (·.1))

/-- `calculateStatistics(entries, targetData)` from the statistics module.
Throws (models `Except.error`) on an empty input list, on a list with no
parseable dates, and — via date-fns `format`, which raises `RangeError
('Invalid time value')` on an invalid `Date` — when the projected end date
falls outside the ECMAScript time-value range. -/
def calculateStatistics (now : ℤ) (entries : List WeightEntry)
    (targetData : TargetData) : Except String Statistics :=
  if entries.length = 0 then .error "No weight entries available"
  else
    match statsSorted now entries with
    | [] => .error "No valid weight entries available"
    | e0 :: restSorted =>
      match addDaysChecked (statsLast e0 restSorted).2
        ⌈statsDaysNeeded now targetData e0 restSorted⌉ with
      | none => .error "Invalid time value"
      | some projMs =>
        let sortedEntries := e0 :: restSorted
        let currentWeight := (statsLast e0 restSorted).1.weight
        let bmi := calculateBMI currentWeight targetData.height
        let dailyAvg := statsDailyAvg now targetData e0 restSorted
        let requiredDailyLoss := statsRequiredDailyLoss now targetData e0 restSorted
        let daysAheadBehind := targetData.totalDuration -
          ((statsDaysElapsed now targetData e0 restSorted : ℤ) +
            statsDaysNeeded now targetData e0 restSorted)
        let weeklyData := statsWeeklyData now e0 restSorted
        let bestWeekInit : BestWeek :=
          ⟨match weeklyData.head? with
            | some w0 => if w0.startDate == "" then targetData.startDate else w0.startDate
            | none => targetData.startDate, 0⟩
        .ok
          { current :=
              { weight := currentWeight, bmi := bmi, bmiCategory := getBMICategory bmi }
            progress :=
              { totalLost := targetData.startWeight - currentWeight
                percentageComplete :=
                  (targetData.startWeight - currentWeight) / targetData.totalKg * 100
                daysElapsed := statsDaysElapsed now targetData e0 restSorted
                daysRemaining := statsDaysRemaining now targetData e0 restSorted
                remaining := currentWeight - targetData.endWeight }
            averages :=
              { daily := dailyAvg, weekly := dailyAvg * 7, monthly := dailyAvg * 30 }
            target :=
              { requiredDailyLoss := requiredDailyLoss
                requiredWeeklyLoss := requiredDailyLoss * 7
                projectedEndDate := formatMMMDdYyyy projMs
                onTrack := decide (0 ≤ daysAheadBehind)
                daysAheadBehind := daysAheadBehind }
            performance :=
              { bestDay := sortedEntries.foldl bestDayStep
                  ⟨if e0.1.date == "" then targetData.startDate else e0.1.date, 0⟩
                bestWeek := weeklyData.foldl
                  (fun best week =>
                    if week.totalLoss < best.loss then ⟨week.startDate, week.totalLoss⟩
                    else best)
                  bestWeekInit
                longestStreak := longestLossStreak (sortedEntries.map (·.1.weight)) } }

/-! ### Moving averages and trend (`achievementService` analytics) -/

/-- A `MovingAverageData` row. -/
structure MovingAverageData where
  date : String
  weight : ℚ
  ma7 : ℚ
  ma14 : ℚ
  ma30 : ℚ
deriving Repr, DecidableEq, Inhabited

/-- `list.map((x, index) => f(index, x))`, carrying the running index. -/
def mapWithIndexFrom (f : ℕ → α → β) : ℕ → List α → List β
  | _, [] => []
  | i, x :: xs => f i x :: mapWithIndexFrom f (i + 1) xs

/-- JavaScript `Array.prototype.map` with the index argument. -/
def mapWithIndex (f : ℕ → α → β) (l : List α) : List β := mapWithIndexFrom f 0 l

/-- `calculateMovingAverages(entries)`: sort chronologically; for each index,
average the trailing 7/14/30 entries when available (`slice(index-N+1,
index+1)` summed and divided by the literal window width), else fall back to
the entry's own weight. -/
def calculateMovingAverages (now : ℤ) (entries : List WeightEntry) :
    List MovingAverageData :=
  let sortedEntries := sortEntries now entries
  mapWithIndex
    (fun index entry =>
      { date := entry.date
        weight := entry.weight
        ma7 :=
          if 6 ≤ index then
            (((sortedEntries.drop (index - 6)).take 7).map (·.weight)).sum / 7
          else entry.weight
        ma14 :=
          if 13 ≤ index then
            (((sortedEntries.drop (index - 13)).take 14).map (·.weight)).sum / 14
          else entry.weight
        ma30 :=
          if 29 ≤ index then
            (((sortedEntries.drop (index - 29)).take 30).map (·.weight)).sum / 30
          else entry.weight })
    sortedEntries

/-- A `TrendAnalysis` result. -/
structure TrendAnalysis where
  trend : String
  confidence : ℚ
  message : String
deriving Repr, DecidableEq, Inhabited

/-- `calculateAverageDailyLoss(entries)`: `(first.weight - last.weight) /
differenceInDays(last.date, first.date)`, `0` for windows of fewer than two
entries or spanning no positive number of days (including the `NaN` of an
unparseable date, for which `days > 0` is false). -/
def calculateAverageDailyLoss (now : ℤ) (entries : List WeightEntry) : ℚ :=
  if entries.length < 2 then 0
  else match entries with
  | [] => 0
  | e :: rest =>
    let lastE := (e :: rest).getLast (by simp)
    let weightChange := e.weight - lastE.weight
    match entryTime now lastE.date, entryTime now e.date with
    | some a, some b =>
      let days := differenceInDays a b
      if days > 0 then weightChange / (days : ℚ) else 0
    | _, _ => 0

/-- JavaScript `Number.prototype.toFixed(2)` for the non-negative values
interpolated into trend messages, in the exact-decimal model. -/
def toFixed2 (q : ℚ) : String :=
  let n := (⌊q * 100 + 1/2⌋).toNat
  toString (n / 100) ++ "." ++ padNat (n % 100) 2

/-- `analyzeTrend(entries)`: compare the average daily loss of the most
recent 7 sorted entries against the preceding 7. -/
def analyzeTrend (now : ℤ) (entries : List WeightEntry) : TrendAnalysis :=
  if entries.length < 14 then
    ⟨"steady", 0.5, "Not enough data to analyze trend. Keep tracking!"⟩
  else
    let sortedEntries := sortEntries now entries
    let recent7 := sortedEntries.drop (sortedEntries.length - 7)
    let previous7 := (sortedEntries.drop (sortedEntries.length - 14)).take 7
    let recentAvgLoss := calculateAverageDailyLoss now recent7
    let previousAvgLoss := calculateAverageDailyLoss now previous7
    let difference := recentAvgLoss - previousAvgLoss
    if |difference| < 0.05 then
      ⟨"steady", 0.8,
        "Your weight loss is steady and consistent. Great job maintaining your pace!"⟩
    else if difference < -0.1 then
      ⟨"accelerating", 0.85,
        "Your weight loss is accelerating! You\u0027re losing " ++ toFixed2 |difference| ++
          "kg more per day than last week."⟩
    else if difference > 0.1 then
      ⟨"slowing", 0.85,
        "Your weight loss is slowing down. Consider reviewing your diet and exercise routine."⟩
    else
      let twoWeekLoss :=
        (sortedEntries.getD (sortedEntries.length - 14) default).weight -
          (sortedEntries.getD (sortedEntries.length - 1) default).weight
      if twoWeekLoss < 0.5 then
        ⟨"plateauing", 0.9,
          "You may be hitting a plateau. Try mixing up your routine to break through!"⟩
      else
        ⟨"steady", 0.75, "Your progress is stable. Keep up the good work!"⟩

/-! ### The data service store (`src/services/dataService.ts`)

The storage collaborator is the two localStorage keys the entry operations
touch: the entry list and the last-entry-date string (`none` = key absent).
The target-data key and the Google-Sheets sync (a guarded, error-swallowing
network call) do not touch the entry list and are outside this model. -/

/-- The mock `mockWeightData` list the service seeds an empty store with. -/
def mockWeightData : List WeightEntry :=
  [⟨"2025-09-28", "Sunday", 112.35, 0, 0, 0, none⟩,
   ⟨"2025-10-04", "Saturday", 112.00, -0.31, -0.35, -0.06, none⟩,
   ⟨"2025-10-11", "Saturday", 109.30, -2.41, -2.70, -0.39, none⟩,
   ⟨"2025-10-18", "Saturday", 108.45, -0.78, -0.85, -0.12, none⟩,
   ⟨"2025-10-25", "Saturday", 105.85, -2.40, -2.60, -0.37, none⟩,
   ⟨"2025-11-01", "Saturday", 104.45, -1.32, -1.40, -0.20, none⟩,
   ⟨"2025-11-08", "Saturday", 104.00, -0.43, -0.45, -0.06, none⟩,
   ⟨"2025-11-15", "Saturday", 102.80, -1.15, -1.20, -0.17, none⟩,
   ⟨"2025-11-19", "Wednesday", 102.00, -0.78, -0.80, -0.20, none⟩,
   ⟨"2025-11-22", "Saturday", 101.85, -0.15, -0.15, -0.05, none⟩,
   ⟨"2025-11-24", "Monday", 101.70, -0.15, -0.15, -0.07, none⟩,
   ⟨"2025-11-27", "Thursday", 101.00, -0.69, -0.70, -0.23, none⟩,
   ⟨"2025-11-29", "Saturday", 100.30, -0.69, -0.70, -0.35, none⟩,
   ⟨"2025-12-03", "Wednesday", 99.70, -0.60, -0.60, -0.15, none⟩,
   ⟨"2025-12-06", "Saturday", 98.90, -0.80, -0.80, -0.27, none⟩,
   ⟨"2025-12-13", "Saturday", 97.90, -1.01, -1.00, -0.14, none⟩,
   ⟨"2025-12-17", "Wednesday", 97.55, -0.36, -0.35, -0.09, none⟩,
   ⟨"2025-12-20", "Saturday", 97.10, -0.46, -0.45, -0.15, none⟩,
   ⟨"2025-12-22", "Monday", 96.55, -0.57, -0.55, -0.27, none⟩,
   ⟨"2025-12-27", "Saturday", 96.65, 0.10, 0.10, 0.02, none⟩]

/-- The mock `mockTargetData` goal. -/
def mockTargetData : TargetData :=
  ⟨"2025-09-28", 112.35, "2026-07-31", 75, 307, 37.35, 170⟩

/-- The localStorage keys touched by the entry operations. -/
structure Store where
  weightEntries : Option (List WeightEntry)
  lastEntryDate : Option String
deriving Repr, DecidableEq, Inhabited

/-- The reduction inside `updateLastEntryDate`: the entry whose parsed date is
the latest (strictly-greater comparisons, so `NaN` keys never replace the
accumulator and the first of equal keys wins). -/
def latestEntry (now : ℤ) : List WeightEntry → Option WeightEntry
  | [] => none
  | e0 :: rest =>
    some ((e0 :: rest).foldl
      (fun mx e => if timeGt (entryTime now e.date) (entryTime now mx.date) then e else mx)
      e0)

/-- `updateLastEntryDate(entries)`: remove the key for an empty list, else
store the latest entry's date string. -/
def updateLastEntryDate (now : ℤ) (entries : List WeightEntry) (st : Store) : Store :=
  match latestEntry now entries with
  | none => { st with lastEntryDate := none }
  | some latest => { st with lastEntryDate := some latest.date }

/-- `normalizeStoredEntries`' per-entry map: canonicalize the date (dropping
the entry if it cannot be parsed) and normalize `recordedAt`. -/
def normalizeStoredEntries (now : ℤ) (entries : List WeightEntry) : List WeightEntry :=
  entries.filterMap fun entry =>
    match toISODate now (.vStr entry.date) with
    | none => none
    | some isoDate =>
      some { entry with
              date := isoDate
              recordedAt := normalizeRecordedAt now isoDate
                (match entry.recordedAt with
                  | some r => .vStr r
                  | none => .vUndef) }

/-- `getStoredEntries()`: read the entry key; when present, normalize (writing
the normalized list back only when normalization dropped entries) and update
the last-entry-date key; when absent, seed the store with the mock data. -/
def getStoredEntries (now : ℤ) (st : Store) : List WeightEntry × Store :=
  match st.weightEntries with
  | some stored =>
    let normalized := normalizeStoredEntries now stored
    let st1 := if normalized.length ≠ stored.length
      then { st with weightEntries := some normalized } else st
    (normalized, updateLastEntryDate now normalized st1)
  | none => (mockWeightData, { st with weightEntries := some mockWeightData })

/-- The non-null fields of the `Partial<WeightEntry>` accepted by
`addWeightEntry` (its `date!`/`weekDay!`/`weight!` assertions). -/
structure NewEntryInput where
  date : String
  weekDay : String
  weight : ℚ
  recordedAt : Option String := none
deriving Repr, DecidableEq, Inhabited

/-- `new Date().toTimeString().slice(0, 5)`: the wall-clock `HH:MM`. -/
def currentTimeHHmm (now : ℤ) : String :=
  let tod := msOfDay now
  padNat (tod / 3600000) 2 ++ ":" ++ padNat (tod % 3600000 / 60000) 2

/-- The `newEntry` object `addWeightEntry` builds: zeroed derived fields and a
defaulted `recordedAt` (`entry.recordedAt || date + "T" + HH:MM`). -/
def mkNewEntry (now : ℤ) (entry : NewEntryInput) : WeightEntry :=
  { date := entry.date
    weekDay := entry.weekDay
    weight := entry.weight
    changePercent := 0
    changeKg := 0
    dailyChange := 0
    recordedAt := some (match entry.recordedAt with
      | some r => if r == "" then entry.date ++ "T" ++ currentTimeHHmm now else r
      | none => entry.date ++ "T" ++ currentTimeHHmm now) }

/-- `addWeightEntry(entry)`: load-and-normalize the stored list, reject a
duplicate date string with an error before any write of the new entry, else
append, recalculate every derived field, persist and update the last-entry
key.  Returns the result and the final store. -/
def addWeightEntry (now : ℤ) (st : Store) (entry : NewEntryInput) :
    Except String (List WeightEntry) × Store :=
  if (getStoredEntries now st).1.any (fun e => e.date == entry.date) then
    (.error "An entry for this date already exists", (getStoredEntries now st).2)
  else
    (.ok (recalculateEntries now
        ((getStoredEntries now st).1 ++ [mkNewEntry now entry])),
      updateLastEntryDate now
        (recalculateEntries now ((getStoredEntries now st).1 ++ [mkNewEntry now entry]))
        { (getStoredEntries now st).2 with
            weightEntries := some (recalculateEntries now
              ((getStoredEntries now st).1 ++ [mkNewEntry now entry])) })

/-! ## Claims -/

/-- On non-negative inputs, `getBMICategory` is the eight-region case split
read off the band table, with `"Unknown"` on the three gaps between bands. -/
lemma getBMICategory_region (b : ℚ) (hb : 0 ≤ b) :
    getBMICategory b =
      if b < 18.5 then "Underweight"
      else if b < 24.9 then "Normal"
      else if b < 25 then "Unknown"
      else if b < 29.9 then "Overweight"
      else if b < 30 then "Unknown"
      else if b < 39.9 then "Obese"
      else if b < 40 then "Unknown"
      else "Extremely Obese" := by
  simp only [getBMICategory, BMI_CATEGORIES, getBMICategoryAux, ge_iff_le]
  rcases lt_or_le b 18.5 with h1 | h1
  · rw [if_pos ⟨hb, h1⟩, if_pos h1]
  rw [if_neg (by rintro ⟨-, hx⟩; linarith), if_neg (not_lt.mpr h1)]
  rcases lt_or_le b 24.9 with h2 | h2
  · rw [if_pos ⟨by linarith, h2⟩, if_pos h2]
  rw [if_neg (by rintro ⟨-, hx⟩; linarith), if_neg (not_lt.mpr h2)]
  rcases lt_or_le b 25 with h3 | h3
  · rw [if_neg (by rintro ⟨hx, -⟩; linarith), if_neg (by rintro ⟨hx, -⟩; linarith),
      if_neg (by intro hx; linarith), if_pos h3]
  rw [if_neg (not_lt.mpr h3)]
  rcases lt_or_le b 29.9 with h4 | h4
  · rw [if_pos ⟨by linarith, h4⟩, if_pos h4]
  rw [if_neg (by rintro ⟨-, hx⟩; linarith), if_neg (not_lt.mpr h4)]
  rcases lt_or_le b 30 with h5 | h5
  · rw [if_neg (by rintro ⟨hx, -⟩; linarith), if_neg (by intro hx; linarith), if_pos h5]
  rw [if_neg (not_lt.mpr h5)]
  rcases lt_or_le b 39.9 with h6 | h6
  · rw [if_pos ⟨by linarith, h6⟩, if_pos h6]
  rw [if_neg (by rintro ⟨-, hx⟩; linarith), if_neg (not_lt.mpr h6)]
  rcases lt_or_le b 40 with h7 | h7
  · rw [if_neg (by intro hx; linarith), if_pos h7]
  rw [if_neg (not_lt.mpr h7), if_pos (by linarith)]

/-- C1, counterexample: the claim says `getBMICategory ∘ calculateBMI` returns
one of the five category labels for every positive weight and height, but a
24.95 kg body at 100 cm has BMI 24.95, which falls in the gap `[24.9, 25)` of
the band table, and the function returns `"Unknown"` — not one of the five
labels. -/
theorem C1_counterexample :
    0 < (24.95 : ℚ) ∧ 0 < (100 : ℚ) ∧
    getBMICategory (calculateBMI 24.95 100) = "Unknown" ∧
    ¬ (getBMICategory (calculateBMI 24.95 100) = "Underweight" ∨
       getBMICategory (calculateBMI 24.95 100) = "Normal" ∨
       getBMICategory (calculateBMI 24.95 100) = "Overweight" ∨
       getBMICategory (calculateBMI 24.95 100) = "Obese" ∨
       getBMICategory (calculateBMI 24.95 100) = "Extremely Obese") := by
  have hbmi : calculateBMI 24.95 100 = 24.95 := by unfold calculateBMI; norm_num
  have hr : getBMICategory (24.95 : ℚ) = "Unknown" := by
    rw [getBMICategory_region 24.95 (by norm_num)]; norm_num
  refine ⟨by norm_num, by norm_num, by rw [hbmi]; exact hr, ?_⟩
  rw [hbmi, hr]; decide

/-- C1, amended: for every weight > 0 and height > 0,
`getBMICategory (calculateBMI weight height)` returns one of the five category
labels or `"Unknown"`, and it returns `"Unknown"` exactly when the BMI falls
in one of the three gaps `[24.9, 25)`, `[29.9, 30)`, `[39.9, 40)` of the band
table; the boundary BMI values 18.5, 25, 30 and 40 fall into the higher of
the two adjacent bands. -/
theorem C1_amended (w h : ℚ) (hw : 0 < w) (hh : 0 < h) :
    (getBMICategory (calculateBMI w h) = "Underweight" ∨
     getBMICategory (calculateBMI w h) = "Normal" ∨
     getBMICategory (calculateBMI w h) = "Overweight" ∨
     getBMICategory (calculateBMI w h) = "Obese" ∨
     getBMICategory (calculateBMI w h) = "Extremely Obese" ∨
     getBMICategory (calculateBMI w h) = "Unknown") ∧
    (getBMICategory (calculateBMI w h) = "Unknown" ↔
      ((24.9 ≤ calculateBMI w h ∧ calculateBMI w h < 25) ∨
       (29.9 ≤ calculateBMI w h ∧ calculateBMI w h < 30) ∨
       (39.9 ≤ calculateBMI w h ∧ calculateBMI w h < 40))) ∧
    getBMICategory 18.5 = "Normal" ∧ getBMICategory 25 = "Overweight" ∧
    getBMICategory 30 = "Obese" ∧ getBMICategory 40 = "Extremely Obese" := by
  have hb : 0 ≤ calculateBMI w h := by
    unfold calculateBMI
    split
    · exact le_refl 0
    · positivity
  have b1 : getBMICategory (18.5 : ℚ) = "Normal" := by
    rw [getBMICategory_region _ (by norm_num)]; norm_num
  have b2 : getBMICategory (25 : ℚ) = "Overweight" := by
    rw [getBMICategory_region _ (by norm_num)]; norm_num
  have b3 : getBMICategory (30 : ℚ) = "Obese" := by
    rw [getBMICategory_region _ (by norm_num)]; norm_num
  have b4 : getBMICategory (40 : ℚ) = "Extremely Obese" := by
    rw [getBMICategory_region _ (by norm_num)]; norm_num
  rw [getBMICategory_region _ hb]
  refine ⟨?_, ?_, b1, b2, b3, b4⟩
  · split_ifs <;> simp
  · split_ifs with g1 g2 g3 g4 g5 g6 g7 <;>
      constructor <;> intro hx <;>
      first
        | rfl
        | (exact absurd hx (by decide))
        | (exfalso; push_neg at *; rcases hx with ⟨ha, hc⟩ | ⟨ha, hc⟩ | ⟨ha, hc⟩ <;> linarith)
        | (push_neg at *; first
            | exact Or.inl ⟨by linarith, by linarith⟩
            | exact Or.inr (Or.inl ⟨by linarith, by linarith⟩)
            | exact Or.inr (Or.inr ⟨by linarith, by linarith⟩))

/-- C1, witness: the amended theorem applied at weight 70 kg, height 170 cm
(BMI ≈ 24.22, a well-formed concrete input). -/
theorem C1_amended_witness :
    getBMICategory (calculateBMI 70 170) = "Underweight" ∨
    getBMICategory (calculateBMI 70 170) = "Normal" ∨
    getBMICategory (calculateBMI 70 170) = "Overweight" ∨
    getBMICategory (calculateBMI 70 170) = "Obese" ∨
    getBMICategory (calculateBMI 70 170) = "Extremely Obese" ∨
    getBMICategory (calculateBMI 70 170) = "Unknown" :=
  (C1_amended 70 170 (by norm_num) (by norm_num)).1

/-- C4, counterexample: the claim says every finite numeric input is read as a
spreadsheet serial date, but `0` is finite and falsy, so `parseDateFlexible(0)`
returns `null` instead of the serial-0 instant `-25569` days. -/
theorem C4_counterexample :
    parseDateFlexible 0 none (.vNum 0) = none ∧
    some (jsRound (((0 : ℚ) - 25569) * 86400 * 1000)) ≠ none := by
  constructor
  · rfl
  · simp

/-- C4, amended: for every finite nonzero numeric input `n` whose serial-date
instant `(n − 25569) × 86400 × 1000` ms (rounded) lies within the ECMAScript
`Date` range, `parseDateFlexible(n)` returns exactly that instant; in
particular serial 1 canonicalizes to `1899-12-31` and serial 25569 to
`1970-01-01` (`0` itself is falsy and yields `null`, and a serial whose
instant overflows the `Date` range falls back to a millisecond-timestamp
interpretation). -/
theorem C4_amended (now : ℤ) (ref : Option ℤ) (q : ℚ) (hq : q ≠ 0)
    (hrange : (jsRound ((q - 25569) * 86400 * 1000)).natAbs ≤ msBound) :
    parseDateFlexible now ref (.vNum q) = some (jsRound ((q - 25569) * 86400 * 1000)) ∧
    toISODate now (.vNum 1) = some "1899-12-31" ∧
    toISODate now (.vNum 25569) = some "1970-01-01" := by
  have h1 : ∀ m : ℤ, ∀ r : Option ℤ, ∀ p : ℚ, p ≠ 0 →
      (jsRound ((p - 25569) * 86400 * 1000)).natAbs ≤ msBound →
      parseDateFlexible m r (.vNum p) = some (jsRound ((p - 25569) * 86400 * 1000)) := by
    intro m r p hp hr
    simp only [parseDateFlexible, jsFalsy]
    rw [if_neg (by simpa using hp), if_pos hr]
  refine ⟨h1 now ref q hq hrange, ?_, ?_⟩
  · have e1 : jsRound (((1 : ℚ) - 25569) * 86400 * 1000) = -2209075200000 := by
      unfold jsRound; norm_num
    unfold toISODate
    rw [h1 now none 1 (by norm_num) (by rw [e1]; decide)]
    rw [e1]; decide
  · have e2 : jsRound (((25569 : ℚ) - 25569) * 86400 * 1000) = 0 := by
      unfold jsRound; norm_num
    unfold toISODate
    rw [h1 now none 25569 (by norm_num) (by rw [e2]; decide)]
    rw [e2]; decide

/-- C4, witness: the amended theorem applied at serial 45000, the value the
specification singles out; the instant is in range and the parse succeeds. -/
theorem C4_amended_witness :
    parseDateFlexible 0 none (.vNum 45000) =
      some (jsRound (((45000 : ℚ) - 25569) * 86400 * 1000)) :=
  (C4_amended 0 none 45000 (by norm_num)
    (by unfold jsRound; norm_num [msBound])).1

/-! ### Sorting lemmas

`jsSortBy` output is pairwise free of inversions, and a list without
inversions is a fixed point of `jsSortBy`.  The comparator properties below
hold for the entry comparator even in the presence of `NaN` keys. -/

lemma mem_insertSorted (gt : α → α → Bool) (x a : α) (l : List α) :
    a ∈ insertSorted gt x l ↔ a = x ∨ a ∈ l := by
  induction l with
  | nil => simp [insertSorted]
  | cons y ys ih =>
    simp only [insertSorted]
    split
    · simp
    · simp only [List.mem_cons, ih]
      tauto

lemma insertSorted_length (gt : α → α → Bool) (x : α) (l : List α) :
    (insertSorted gt x l).length = l.length + 1 := by
  induction l with
  | nil => rfl
  | cons y ys ih =>
    simp only [insertSorted]
    split <;> simp [ih]

lemma jsSortBy_foldl_length (gt : α → α → Bool) (l acc : List α) :
    (l.foldl (fun acc x => insertSorted gt x acc) acc).length =
      acc.length + l.length := by
  induction l generalizing acc with
  | nil => simp
  | cons x xs ih =>
    simp only [List.foldl_cons, List.length_cons]
    rw [ih, insertSorted_length]
    omega

lemma jsSortBy_length (gt : α → α → Bool) (l : List α) :
    (jsSortBy gt l).length = l.length := by
  unfold jsSortBy
  rw [jsSortBy_foldl_length]
  simp

lemma insertSorted_pairwise (gt : α → α → Bool)
    (hasym : ∀ a b, gt a b = true → gt b a = false)
    (htrans : ∀ a b c, gt a b = true → gt a c = false → gt b c = false)
    (x : α) (l : List α) (hl : l.Pairwise (fun a b => gt a b = false)) :
    (insertSorted gt x l).Pairwise (fun a b => gt a b = false) := by
  induction l with
  | nil => simp [insertSorted]
  | cons y ys ih =>
    rcases List.pairwise_cons.mp hl with ⟨hy, hys⟩
    simp only [insertSorted]
    split
    case isTrue hgt =>
      refine List.pairwise_cons.mpr ⟨?_, hl⟩
      intro z hz
      rcases List.mem_cons.mp hz with hzy | hz
      · subst hzy; exact hasym _ _ hgt
      · exact htrans _ _ _ hgt (hy z hz)
    case isFalse hgt =>
      refine List.pairwise_cons.mpr ⟨?_, ih hys⟩
      intro z hz
      rcases (mem_insertSorted gt x z ys).mp hz with hzx | hz
      · subst hzx; exact Bool.eq_false_iff.mpr hgt
      · exact hy z hz

lemma jsSortBy_pairwise (gt : α → α → Bool)
    (hasym : ∀ a b, gt a b = true → gt b a = false)
    (htrans : ∀ a b c, gt a b = true → gt a c = false → gt b c = false)
    (l : List α) :
    (jsSortBy gt l).Pairwise (fun a b => gt a b = false) := by
  suffices h : ∀ acc, acc.Pairwise (fun a b => gt a b = false) →
      (l.foldl (fun acc x => insertSorted gt x acc) acc).Pairwise
        (fun a b => gt a b = false) by
    exact h [] (by simp)
  induction l with
  | nil => intro acc hacc; simpa using hacc
  | cons x xs ih =>
    intro acc hacc
    exact ih _ (insertSorted_pairwise gt hasym htrans x acc hacc)

lemma insertSorted_append (gt : α → α → Bool) (x : α) (l : List α)
    (h : ∀ y ∈ l, gt y x = false) :
    insertSorted gt x l = l ++ [x] := by
  induction l with
  | nil => rfl
  | cons y ys ih =>
    simp only [insertSorted]
    rw [if_neg, ih fun z hz => h z (List.mem_cons_of_mem y hz)]
    · rfl
    · simp [h y (List.mem_cons_self y ys)]

lemma jsSortBy_fixpoint (gt : α → α → Bool) (l : List α)
    (hl : l.Pairwise (fun a b => gt a b = false)) :
    jsSortBy gt l = l := by
  induction l using List.reverseRecOn with
  | nil => rfl
  | append_singleton xs x ih =>
    rcases List.pairwise_append.mp hl with ⟨hxs, -, hcross⟩
    unfold jsSortBy at *
    rw [List.foldl_append, List.foldl_cons, List.foldl_nil, ih hxs,
      insertSorted_append gt x xs
        (fun y hy => hcross y hy x (List.mem_singleton_self x))]

lemma timeGt_asymm (a b : Option ℤ) (h : timeGt a b = true) : timeGt b a = false := by
  cases a <;> cases b <;> simp_all [timeGt]
  omega

lemma timeGt_str (a b c : Option ℤ) (h1 : timeGt a b = true)
    (h2 : timeGt a c = false) : timeGt b c = false := by
  cases a <;> cases b <;> cases c <;> simp_all [timeGt]
  omega

lemma entryGt_asymm (now : ℤ) (a b : WeightEntry) (h : entryGt now a b = true) :
    entryGt now b a = false := timeGt_asymm _ _ h

lemma entryGt_str (now : ℤ) (a b c : WeightEntry) (h1 : entryGt now a b = true)
    (h2 : entryGt now a c = false) : entryGt now b c = false :=
  timeGt_str _ _ _ h1 h2

/-! ### Derivation lemmas -/

lemma calculateDerivedFields_date (now : ℤ) (e : WeightEntry)
    (p : Option WeightEntry) : (calculateDerivedFields now e p).date = e.date := by
  cases p <;> rfl

lemma calculateDerivedFields_weight (now : ℤ) (e : WeightEntry)
    (p : Option WeightEntry) : (calculateDerivedFields now e p).weight = e.weight := by
  cases p <;> rfl

lemma deriveList_map_date (now : ℤ) (p : Option WeightEntry)
    (s : List WeightEntry) :
    (deriveList now p s).map WeightEntry.date = s.map WeightEntry.date := by
  induction s generalizing p with
  | nil => rfl
  | cons e rest ih =>
    simp [deriveList, calculateDerivedFields_date, ih]

lemma pairwise_entryGt_of_map_date (now : ℤ) {s t : List WeightEntry}
    (hmap : s.map WeightEntry.date = t.map WeightEntry.date)
    (ht : t.Pairwise (fun a b => entryGt now a b = false)) :
    s.Pairwise (fun a b => entryGt now a b = false) := by
  have ht' : (t.map WeightEntry.date).Pairwise
      (fun d1 d2 => timeGt (entryTime now d1) (entryTime now d2) = false) :=
    List.pairwise_map.mpr ht
  rw [← hmap] at ht'
  exact List.pairwise_map.mp ht'

lemma derive_derive (now : ℤ) (e : WeightEntry) (p q : Option WeightEntry)
    (hagree : match p, q with
      | none, none => True
      | some a, some b => a.date = b.date ∧ a.weight = b.weight
      | _, _ => False) :
    calculateDerivedFields now (calculateDerivedFields now e p) q =
      calculateDerivedFields now e p := by
  match p, q with
  | none, none => cases e; rfl
  | some a, some b =>
    obtain ⟨hd, hw⟩ := hagree
    cases e
    simp [calculateDerivedFields, hd, hw]

lemma deriveList_idem (now : ℤ) (s : List WeightEntry) (p q : Option WeightEntry)
    (hagree : match p, q with
      | none, none => True
      | some a, some b => a.date = b.date ∧ a.weight = b.weight
      | _, _ => False) :
    deriveList now q (deriveList now p s) = deriveList now p s := by
  induction s generalizing p q with
  | nil => rfl
  | cons e rest ih =>
    simp only [deriveList]
    rw [derive_derive now e p q hagree]
    rw [ih (some e) (some (calculateDerivedFields now e p))
      ⟨(calculateDerivedFields_date now e p).symm,
       (calculateDerivedFields_weight now e p).symm⟩]

/-- C2: derivation is idempotent — `recalculateEntries` applied twice returns,
field for field, the same list as applying it once, because it recomputes the
derived fields from `weight` and `date` alone and its chronological sort
leaves an already-derived (hence already-sorted) series unchanged. -/
theorem C2_derive_idempotent (now : ℤ) (entries : List WeightEntry) :
    recalculateEntries now (recalculateEntries now entries) =
      recalculateEntries now entries := by
  have hpair : (sortEntries now entries).Pairwise
      (fun a b => entryGt now a b = false) :=
    jsSortBy_pairwise _ (entryGt_asymm now) (entryGt_str now) entries
  have hpair2 : (recalculateEntries now entries).Pairwise
      (fun a b => entryGt now a b = false) :=
    pairwise_entryGt_of_map_date now
      (deriveList_map_date now none (sortEntries now entries)) hpair
  show deriveList now none (sortEntries now (recalculateEntries now entries)) = _
  rw [show sortEntries now (recalculateEntries now entries) =
        recalculateEntries now entries from jsSortBy_fixpoint _ _ hpair2]
  exact deriveList_idem now (sortEntries now entries) none none trivial

lemma recalculateEntries_headD (now : ℤ) (entries : List WeightEntry)
    (h : entries ≠ []) :
    recalculateEntries now entries ≠ [] ∧
    ((recalculateEntries now entries).headD default).changePercent = 0 ∧
    ((recalculateEntries now entries).headD default).changeKg = 0 ∧
    ((recalculateEntries now entries).headD default).dailyChange = 0 := by
  have hlen : (sortEntries now entries).length = entries.length :=
    jsSortBy_length _ entries
  have hne : sortEntries now entries ≠ [] := by
    intro hc
    rw [hc] at hlen
    exact h (List.length_eq_zero.mp hlen.symm)
  obtain ⟨x, xs, hxx⟩ := List.exists_cons_of_ne_nil hne
  unfold recalculateEntries
  rw [hxx]
  simp [deriveList, calculateDerivedFields]

/-- C5: for every non-empty input list, the derived output is non-empty and
its first (chronologically earliest) entry has all three derived fields
zeroed. -/
theorem C5_first_entry_zeroed (now : ℤ) (entries : List WeightEntry)
    (h : entries ≠ []) :
    recalculateEntries now entries ≠ [] ∧
    ((recalculateEntries now entries).headD default).changePercent = 0 ∧
    ((recalculateEntries now entries).headD default).changeKg = 0 ∧
    ((recalculateEntries now entries).headD default).dailyChange = 0 :=
  recalculateEntries_headD now entries h

/-- C5, witness: a singleton list with nonzero stale derived fields comes back
with its first entry zeroed. -/
theorem C5_witness :
    recalculateEntries 0 [⟨"2025-01-01", "Wednesday", 100, 5, 5, 5, none⟩] ≠ [] ∧
    ((recalculateEntries 0 [⟨"2025-01-01", "Wednesday", 100, 5, 5, 5, none⟩]).headD
        default).changePercent = 0 ∧
    ((recalculateEntries 0 [⟨"2025-01-01", "Wednesday", 100, 5, 5, 5, none⟩]).headD
        default).changeKg = 0 ∧
    ((recalculateEntries 0 [⟨"2025-01-01", "Wednesday", 100, 5, 5, 5, none⟩]).headD
        default).dailyChange = 0 :=
  C5_first_entry_zeroed 0 _ (by simp)

/-! ### Indexed-map lemmas for the moving-average engine -/

lemma mapWithIndexFrom_length (f : ℕ → α → β) (k : ℕ) (l : List α) :
    (mapWithIndexFrom f k l).length = l.length := by
  induction l generalizing k with
  | nil => rfl
  | cons x xs ih => simp [mapWithIndexFrom, ih]

lemma mapWithIndexFrom_getD (f : ℕ → α → β) (k : ℕ) (l : List α) (i : ℕ)
    (d : β) (dd : α) (hi : i < l.length) :
    (mapWithIndexFrom f k l).getD i d = f (k + i) (l.getD i dd) := by
  induction l generalizing k i with
  | nil => simp at hi
  | cons x xs ih =>
    cases i with
    | zero => rfl
    | succ n =>
      have hn : n < xs.length := by simpa using hi
      show (mapWithIndexFrom f (k + 1) xs).getD n d = _
      rw [ih (k + 1) n hn]
      congr 1
      omega

lemma mapWithIndex_length (f : ℕ → α → β) (l : List α) :
    (mapWithIndex f l).length = l.length := mapWithIndexFrom_length f 0 l

lemma mapWithIndex_getD (f : ℕ → α → β) (l : List α) (i : ℕ) (d : β) (dd : α)
    (hi : i < l.length) : (mapWithIndex f l).getD i d = f i (l.getD i dd) := by
  unfold mapWithIndex
  rw [mapWithIndexFrom_getD f 0 l i d dd hi]
  congr 1
  omega

lemma window_length (s : List WeightEntry) (i n : ℕ) (hi : i < s.length)
    (hn : n - 1 ≤ i) : ((s.drop (i + 1 - n)).take n).length = n := by
  simp only [List.length_take, List.length_drop]
  omega

/-- C7: `calculateMovingAverages` yields one row per input entry over the
chronologically sorted series; row `i` carries the sorted entry's date and raw
weight, and each `maN` is the arithmetic mean (sum over window length) of the
trailing `N`-entry window when `i ≥ N − 1` and the entry's own weight
otherwise — in particular, for series shorter than 7 entries every `ma7`
equals the entry's own weight. -/
theorem C7_moving_averages (now : ℤ) (entries : List WeightEntry) :
    (calculateMovingAverages now entries).length = entries.length ∧
    (sortEntries now entries).Pairwise (fun a b => entryGt now a b = false) ∧
    (∀ i, i < entries.length →
      ((calculateMovingAverages now entries).getD i default).date =
        ((sortEntries now entries).getD i default).date ∧
      ((calculateMovingAverages now entries).getD i default).weight =
        ((sortEntries now entries).getD i default).weight ∧
      ((calculateMovingAverages now entries).getD i default).ma7 =
        (if 6 ≤ i then
          (((((sortEntries now entries).drop (i + 1 - 7)).take 7).map (·.weight)).sum /
            (((((sortEntries now entries).drop (i + 1 - 7)).take 7).length : ℕ) : ℚ))
        else ((sortEntries now entries).getD i default).weight) ∧
      ((calculateMovingAverages now entries).getD i default).ma14 =
        (if 13 ≤ i then
          (((((sortEntries now entries).drop (i + 1 - 14)).take 14).map (·.weight)).sum /
            (((((sortEntries now entries).drop (i + 1 - 14)).take 14).length : ℕ) : ℚ))
        else ((sortEntries now entries).getD i default).weight) ∧
      ((calculateMovingAverages now entries).getD i default).ma30 =
        (if 29 ≤ i then
          (((((sortEntries now entries).drop (i + 1 - 30)).take 30).map (·.weight)).sum /
            (((((sortEntries now entries).drop (i + 1 - 30)).take 30).length : ℕ) : ℚ))
        else ((sortEntries now entries).getD i default).weight)) ∧
    (entries.length < 7 → ∀ i, i < entries.length →
      ((calculateMovingAverages now entries).getD i default).ma7 =
        ((calculateMovingAverages now entries).getD i default).weight) := by
  have hslen : (sortEntries now entries).length = entries.length :=
    jsSortBy_length _ entries
  have hmain : ∀ i, i < entries.length →
      ((calculateMovingAverages now entries).getD i default).date =
        ((sortEntries now entries).getD i default).date ∧
      ((calculateMovingAverages now entries).getD i default).weight =
        ((sortEntries now entries).getD i default).weight ∧
      ((calculateMovingAverages now entries).getD i default).ma7 =
        (if 6 ≤ i then
          (((((sortEntries now entries).drop (i + 1 - 7)).take 7).map (·.weight)).sum /
            (((((sortEntries now entries).drop (i + 1 - 7)).take 7).length : ℕ) : ℚ))
        else ((sortEntries now entries).getD i default).weight) ∧
      ((calculateMovingAverages now entries).getD i default).ma14 =
        (if 13 ≤ i then
          (((((sortEntries now entries).drop (i + 1 - 14)).take 14).map (·.weight)).sum /
            (((((sortEntries now entries).drop (i + 1 - 14)).take 14).length : ℕ) : ℚ))
        else ((sortEntries now entries).getD i default).weight) ∧
      ((calculateMovingAverages now entries).getD i default).ma30 =
        (if 29 ≤ i then
          (((((sortEntries now entries).drop (i + 1 - 30)).take 30).map (·.weight)).sum /
            (((((sortEntries now entries).drop (i + 1 - 30)).take 30).length : ℕ) : ℚ))
        else ((sortEntries now entries).getD i default).weight) := by
    intro i hi
    have hi' : i < (sortEntries now entries).length := by rw [hslen]; exact hi
    unfold calculateMovingAverages
    rw [mapWithIndex_getD _ _ i default default hi']
    refine ⟨rfl, rfl, ?_, ?_, ?_⟩
    · by_cases h6 : 6 ≤ i
      · rw [if_pos h6, if_pos h6]
        have he : i + 1 - 7 = i - 6 := by omega
        have hw : (((sortEntries now entries).drop (i + 1 - 7)).take 7).length = 7 :=
          window_length _ i 7 hi' (by omega)
        rw [hw, he]
        norm_num
      · rw [if_neg h6, if_neg h6]
    · by_cases h13 : 13 ≤ i
      · rw [if_pos h13, if_pos h13]
        have he : i + 1 - 14 = i - 13 := by omega
        have hw : (((sortEntries now entries).drop (i + 1 - 14)).take 14).length = 14 :=
          window_length _ i 14 hi' (by omega)
        rw [hw, he]
        norm_num
      · rw [if_neg h13, if_neg h13]
    · by_cases h29 : 29 ≤ i
      · rw [if_pos h29, if_pos h29]
        have he : i + 1 - 30 = i - 29 := by omega
        have hw : (((sortEntries now entries).drop (i + 1 - 30)).take 30).length = 30 :=
          window_length _ i 30 hi' (by omega)
        rw [hw, he]
        norm_num
      · rw [if_neg h29, if_neg h29]
  refine ⟨?_, jsSortBy_pairwise _ (entryGt_asymm now) (entryGt_str now) entries,
    hmain, ?_⟩
  · show (mapWithIndex _ _).length = _
    rw [mapWithIndex_length, hslen]
  · intro hshort i hi
    obtain ⟨-, hwt, hma7, -, -⟩ := hmain i hi
    rw [hma7, hwt, if_neg (by omega)]

/-- C7, witness: on a concrete two-entry series the fallback clause applies —
`ma7` of the first row equals its raw weight. -/
theorem C7_witness :
    ((calculateMovingAverages 0
        [⟨"2025-01-01", "Wednesday", 100, 0, 0, 0, none⟩,
         ⟨"2025-01-02", "Thursday", 99, 0, 0, 0, none⟩]).getD 0 default).ma7 =
      ((calculateMovingAverages 0
        [⟨"2025-01-01", "Wednesday", 100, 0, 0, 0, none⟩,
         ⟨"2025-01-02", "Thursday", 99, 0, 0, 0, none⟩]).getD 0 default).weight :=
  (C7_moving_averages 0 _).2.2.2 (by simp) 0 (by simp)

/-! ### List indexing bridges for the trend analyzer -/

lemma getD_eq_headD_drop (s : List α) (k : ℕ) (d : α) :
    s.getD k d = (s.drop k).headD d := by
  induction s generalizing k with
  | nil => simp
  | cons x xs ih =>
    cases k with
    | zero => rfl
    | succ n => simp [ih n]

lemma getLastD_eq_getD (s : List α) (d : α) :
    s.getLast?.getD d = s.getD (s.length - 1) d := by
  induction s with
  | nil => rfl
  | cons x xs ih =>
    cases xs with
    | nil => rfl
    | cons y ys =>
      show (List.getLast? (y :: ys)).getD d = _
      rw [ih]
      simp

/-- C6: `analyzeTrend` returns `steady` with confidence 0.5 below 14 entries;
with at least 14 entries, writing `difference` for the average daily loss of
the most recent 7 sorted entries minus that of the preceding 7, it returns
`steady` (0.8) when `|difference| < 0.05`, else `accelerating` (0.85) when
`difference < -0.1`, else `slowing` (0.85) when `difference > 0.1`, else
`plateauing` (0.9) when the first-minus-last weight over the most recent 14
entries is below 0.5 kg, else `steady` (0.75). -/
theorem C6_trend_classification (now : ℤ) (entries : List WeightEntry) :
    (entries.length < 14 →
      (analyzeTrend now entries).trend = "steady" ∧
      (analyzeTrend now entries).confidence = 0.5) ∧
    (14 ≤ entries.length →
      (|calculateAverageDailyLoss now
            ((sortEntries now entries).drop ((sortEntries now entries).length - 7)) -
          calculateAverageDailyLoss now
            (((sortEntries now entries).drop
                ((sortEntries now entries).length - 14)).take 7)| < 0.05 →
        (analyzeTrend now entries).trend = "steady" ∧
        (analyzeTrend now entries).confidence = 0.8) ∧
      (¬ |calculateAverageDailyLoss now
            ((sortEntries now entries).drop ((sortEntries now entries).length - 7)) -
          calculateAverageDailyLoss now
            (((sortEntries now entries).drop
                ((sortEntries now entries).length - 14)).take 7)| < 0.05 →
        calculateAverageDailyLoss now
            ((sortEntries now entries).drop ((sortEntries now entries).length - 7)) -
          calculateAverageDailyLoss now
            (((sortEntries now entries).drop
                ((sortEntries now entries).length - 14)).take 7) < -0.1 →
        (analyzeTrend now entries).trend = "accelerating" ∧
        (analyzeTrend now entries).confidence = 0.85) ∧
      (¬ |calculateAverageDailyLoss now
            ((sortEntries now entries).drop ((sortEntries now entries).length - 7)) -
          calculateAverageDailyLoss now
            (((sortEntries now entries).drop
                ((sortEntries now entries).length - 14)).take 7)| < 0.05 →
        ¬ calculateAverageDailyLoss now
            ((sortEntries now entries).drop ((sortEntries now entries).length - 7)) -
          calculateAverageDailyLoss now
            (((sortEntries now entries).drop
                ((sortEntries now entries).length - 14)).take 7) < -0.1 →
        calculateAverageDailyLoss now
            ((sortEntries now entries).drop ((sortEntries now entries).length - 7)) -
          calculateAverageDailyLoss now
            (((sortEntries now entries).drop
                ((sortEntries now entries).length - 14)).take 7) > 0.1 →
        (analyzeTrend now entries).trend = "slowing" ∧
        (analyzeTrend now entries).confidence = 0.85) ∧
      (¬ |calculateAverageDailyLoss now
            ((sortEntries now entries).drop ((sortEntries now entries).length - 7)) -
          calculateAverageDailyLoss now
            (((sortEntries now entries).drop
                ((sortEntries now entries).length - 14)).take 7)| < 0.05 →
        ¬ calculateAverageDailyLoss now
            ((sortEntries now entries).drop ((sortEntries now entries).length - 7)) -
          calculateAverageDailyLoss now
            (((sortEntries now entries).drop
                ((sortEntries now entries).length - 14)).take 7) < -0.1 →
        ¬ calculateAverageDailyLoss now
            ((sortEntries now entries).drop ((sortEntries now entries).length - 7)) -
          calculateAverageDailyLoss now
            (((sortEntries now entries).drop
                ((sortEntries now entries).length - 14)).take 7) > 0.1 →
        ((((sortEntries now entries).drop
              ((sortEntries now entries).length - 14)).headD default).weight -
            ((sortEntries now entries).getLast?.getD default).weight < 0.5 →
          (analyzeTrend now entries).trend = "plateauing" ∧
          (analyzeTrend now entries).confidence = 0.9) ∧
        (¬ (((sortEntries now entries).drop
              ((sortEntries now entries).length - 14)).headD default).weight -
            ((sortEntries now entries).getLast?.getD default).weight < 0.5 →
          (analyzeTrend now entries).trend = "steady" ∧
          (analyzeTrend now entries).confidence = 0.75))) := by
  constructor
  · intro hlt
    unfold analyzeTrend
    rw [if_pos hlt]
    exact ⟨rfl, rfl⟩
  · intro hge
    have hplateau :
        (((sortEntries now entries).drop
            ((sortEntries now entries).length - 14)).headD default).weight -
          ((sortEntries now entries).getLast?.getD default).weight =
        ((sortEntries now entries).getD ((sortEntries now entries).length - 14)
            default).weight -
          ((sortEntries now entries).getD ((sortEntries now entries).length - 1)
            default).weight := by
      rw [getD_eq_headD_drop, getLastD_eq_getD]
    refine ⟨?_, ?_, ?_, ?_⟩
    · intro h1
      unfold analyzeTrend
      rw [if_neg (by omega), if_pos h1]
      exact ⟨rfl, rfl⟩
    · intro h1 h2
      unfold analyzeTrend
      rw [if_neg (by omega), if_neg h1, if_pos h2]
      exact ⟨rfl, rfl⟩
    · intro h1 h2 h3
      unfold analyzeTrend
      rw [if_neg (by omega), if_neg h1, if_neg h2, if_pos h3]
      exact ⟨rfl, rfl⟩
    · intro h1 h2 h3
      constructor <;> intro h4 <;> unfold analyzeTrend
      · rw [if_neg (by omega), if_neg h1, if_neg h2, if_neg h3,
          if_pos (by rw [← hplateau]; exact h4)]
        exact ⟨rfl, rfl⟩
      · rw [if_neg (by omega), if_neg h1, if_neg h2, if_neg h3,
          if_neg (by rw [← hplateau]; exact h4)]
        exact ⟨rfl, rfl⟩

/-- C6, witness: the insufficient-data clause on the empty list. -/
theorem C6_witness :
    (analyzeTrend 0 []).trend = "steady" ∧ (analyzeTrend 0 []).confidence = 0.5 :=
  (C6_trend_classification 0 []).1 (by simp)

/-- C3, counterexample: the claim says `calculateStatistics` never raises when
at least one entry has a parseable date, but a single validly dated entry with
an extreme weight drives the projected completion date beyond the ECMAScript
`Date` range, and date-fns `format` then raises `RangeError('Invalid time
value')`. -/
theorem C3_counterexample :
    statsSorted 0 [⟨"2025-01-01", "Wednesday", 10 ^ 30, 0, 0, 0, none⟩] ≠ [] ∧
    calculateStatistics 0 [⟨"2025-01-01", "Wednesday", 10 ^ 30, 0, 0, 0, none⟩]
        ⟨"2025-01-01", 100, "2025-07-01", 80, 181, 20, 170⟩ =
      .error "Invalid time value" := by
  have hs : statsSorted 0 [⟨"2025-01-01", "Wednesday", 10 ^ 30, 0, 0, 0, none⟩] =
      [(⟨"2025-01-01", "Wednesday", 10 ^ 30, 0, 0, 0, none⟩, 1735689600000)] := by rfl
  constructor
  · rw [hs]; simp
  · unfold calculateStatistics
    rw [if_neg (by simp)]
    rw [hs]
    have hp1 : parseDateFlexible 0 none (.vStr "2025-01-01") = some 1735689600000 := by rfl
    have hp2 : parseDateFlexible 0 none (.vStr "2025-07-01") = some 1751328000000 := by rfl
    norm_num [statsLast, statsDaysNeeded, statsDailyAvg, statsDaysElapsed,
      statsStartDate, hp1, differenceInDays, addDaysChecked, msBound, max_def]

/-- C3, amended: `calculateStatistics` raises whenever the entry list is empty
after filtering out unparseably dated entries, and conversely any raise is
either that empty-input error or the `RangeError` date-fns `format` raises
when the projected end date overflows the `Date` range; with at least one
parseable entry and an in-range projection it returns a `Statistics` value. -/
theorem C3_amended (now : ℤ) (entries : List WeightEntry) (t : TargetData) :
    (statsSorted now entries = [] →
      (calculateStatistics now entries t).isOk = false) ∧
    ((calculateStatistics now entries t).isOk = false →
      statsSorted now entries = [] ∨
      calculateStatistics now entries t = .error "Invalid time value") := by
  constructor
  · intro hempty
    unfold calculateStatistics
    split
    · rfl
    · rw [hempty]
      rfl
  · intro hnotok
    by_cases h0 : entries.length = 0
    · left
      rw [List.length_eq_zero.mp h0]
      rfl
    · cases hs : statsSorted now entries with
      | nil => exact Or.inl rfl
      | cons e0 rest =>
        right
        unfold calculateStatistics at hnotok ⊢
        rw [if_neg h0] at hnotok ⊢
        rw [hs] at hnotok ⊢
        split at hnotok
        · rename_i heq
          simp at heq
        · rename_i e0' restS' heq
          rw [List.cons.injEq] at heq
          obtain ⟨he, hr⟩ := heq
          subst he
          subst hr
          split at hnotok
          · rfl
          · exact Bool.noConfusion hnotok

/-- C3, witness: the amended theorem applied concretely — the empty list
raises, and a raise at a one-entry list is classified by the disjunction. -/
theorem C3_amended_witness :
    (calculateStatistics 0 [] ⟨"2025-01-01", 100, "2025-07-01", 80, 181, 20, 170⟩).isOk
        = false ∧
    (statsSorted 0 [] = [] ∨
      calculateStatistics 0 [] ⟨"2025-01-01", 100, "2025-07-01", 80, 181, 20, 170⟩ =
        .error "Invalid time value") :=
  ⟨(C3_amended 0 [] _).1 rfl, (C3_amended 0 [] _).2 rfl⟩

/-- C8, counterexample: the claim says an unparseable recorded-at value yields
`undefined`, but a string containing `'T'` that fails every parsing strategy
— here `"@@T@@"` — is returned verbatim (trimmed) instead of `undefined`. -/
theorem C8_counterexample :
    parseDateFlexible 0 none (.vStr "@@T@@") = none ∧
    normalizeRecordedAt 0 "2025-01-05" (.vStr "@@T@@") = some "@@T@@" ∧
    normalizeRecordedAt 0 "2025-01-05" (.vStr "@@T@@") ≠ none := by
  refine ⟨rfl, rfl, by decide⟩

/-- C8, amended: `normalizeRecordedAt` returns `undefined` for absent (falsy)
values, for whitespace-only strings, and for non-`'T'` values that fail
parsing; a recorded-at string containing `'T'` is re-parsed and re-serialized
to an absolute instant when parseable but returned verbatim (trimmed) when
not; a time-only string is spliced onto the owning date; all other values are
parsed flexibly and serialized, with `undefined` on failure. -/
theorem C8_amended (now : ℤ) (dateIso : String) :
    (∀ v : JSVal, jsFalsy v = true → normalizeRecordedAt now dateIso v = none) ∧
    (∀ s : String, trimChars s.data = [] →
      normalizeRecordedAt now dateIso (.vStr s) = none) ∧
    (∀ s : String, trimChars s.data ≠ [] → (trimChars s.data).contains 'T' = true →
      normalizeRecordedAt now dateIso (.vStr s) =
        some ((parseDateFlexible now none (.vStr (String.mk (trimChars s.data)))).elim
          (String.mk (trimChars s.data)) toISOStringModel)) ∧
    (∀ s : String, trimChars s.data ≠ [] → (trimChars s.data).contains 'T' = false →
      isTimeOnly (trimChars s.data) = true →
      normalizeRecordedAt now dateIso (.vStr s) =
        some (dateIso ++ "T" ++ String.mk (trimChars s.data))) ∧
    (∀ s : String, trimChars s.data ≠ [] → (trimChars s.data).contains 'T' = false →
      isTimeOnly (trimChars s.data) = false →
      normalizeRecordedAt now dateIso (.vStr s) =
        (parseDateFlexible now none (.vStr s)).map toISOStringModel) ∧
    (∀ q : ℚ, q ≠ 0 →
      normalizeRecordedAt now dateIso (.vNum q) =
        (parseDateFlexible now none (.vNum q)).map toISOStringModel) ∧
    (∀ ms : Option ℤ,
      normalizeRecordedAt now dateIso (.vDate ms) =
        (parseDateFlexible now none (.vDate ms)).map toISOStringModel) := by
  refine ⟨?_, ?_, ?_, ?_, ?_, ?_, ?_⟩
  · intro v hv
    unfold normalizeRecordedAt
    rw [if_pos hv]
  · intro s hs
    unfold normalizeRecordedAt
    split
    · rfl
    · simp only [hs]
      simp
  · intro s hne hT
    unfold normalizeRecordedAt
    rw [if_neg ?_]
    · simp only []
      rw [if_neg hne, if_pos hT]
      cases hp : parseDateFlexible now none (.vStr (String.mk (trimChars s.data))) <;>
        simp [hp]
    · simp only [jsFalsy, Bool.not_eq_true, beq_eq_false_iff_ne]
      intro hc
      apply hne
      rw [hc]
      rfl
  · intro s hne hT htime
    unfold normalizeRecordedAt
    rw [if_neg ?_]
    · simp only []
      rw [if_neg hne, if_neg (by intro hc; rw [hT] at hc; exact Bool.noConfusion hc),
        if_pos htime]
    · simp only [jsFalsy, Bool.not_eq_true, beq_eq_false_iff_ne]
      intro hc
      apply hne
      rw [hc]
      rfl
  · intro s hne hT htime
    unfold normalizeRecordedAt
    rw [if_neg ?_]
    · simp only []
      rw [if_neg hne, if_neg (by intro hc; rw [hT] at hc; exact Bool.noConfusion hc),
        if_neg (by intro hc; rw [htime] at hc; exact Bool.noConfusion hc)]
    · simp only [jsFalsy, Bool.not_eq_true, beq_eq_false_iff_ne]
      intro hc
      apply hne
      rw [hc]
      rfl
  · intro q hq
    unfold normalizeRecordedAt
    rw [if_neg (by simp [jsFalsy, hq])]
  · intro ms
    unfold normalizeRecordedAt
    rw [if_neg (by simp [jsFalsy])]

/-- C8, witness: the amended theorem's time-only clause at `"08:30"` — the
time is spliced onto the owning date. -/
theorem C8_amended_witness :
    normalizeRecordedAt 0 "2025-01-05" (.vStr "08:30") =
      some ("2025-01-05" ++ "T" ++ String.mk (trimChars "08:30".data)) :=
  (C8_amended 0 "2025-01-05").2.2.2.1 "08:30" (by decide) (by decide) (by decide)

/-! ### Store lemmas for the add-entry operation -/

lemma updateLastEntryDate_weightEntries (now : ℤ) (entries : List WeightEntry)
    (st : Store) :
    (updateLastEntryDate now entries st).weightEntries = st.weightEntries := by
  unfold updateLastEntryDate
  cases latestEntry now entries <;> rfl

lemma getStoredEntries_some (now : ℤ) (st : Store) (stored : List WeightEntry)
    (hst : st.weightEntries = some stored) :
    getStoredEntries now st =
      (normalizeStoredEntries now stored,
        updateLastEntryDate now (normalizeStoredEntries now stored)
          (if (normalizeStoredEntries now stored).length ≠ stored.length
            then { st with weightEntries := some (normalizeStoredEntries now stored) }
            else st)) := by
  unfold getStoredEntries
  rw [hst]

/-- C10, counterexample: the claim says a duplicate-date `addWeightEntry`
leaves the stored entry list unchanged, but loading the store already rewrites
it: with a stored list containing an undateable row, the normalization inside
`getStoredEntries` drops that row and persists the shrunken list before the
duplicate check throws. -/
theorem C10_counterexample :
    (addWeightEntry 0
        ⟨some [⟨"2025-01-05", "Sunday", 100, 0, 0, 0, none⟩,
               ⟨"@@", "Monday", 99, 0, 0, 0, none⟩], none⟩
        ⟨"2025-01-05", "Sunday", 98, none⟩).1 =
      .error "An entry for this date already exists" ∧
    (addWeightEntry 0
        ⟨some [⟨"2025-01-05", "Sunday", 100, 0, 0, 0, none⟩,
               ⟨"@@", "Monday", 99, 0, 0, 0, none⟩], none⟩
        ⟨"2025-01-05", "Sunday", 98, none⟩).2.weightEntries ≠
      some [⟨"2025-01-05", "Sunday", 100, 0, 0, 0, none⟩,
            ⟨"@@", "Monday", 99, 0, 0, 0, none⟩] := by
  exact ⟨by rfl, by decide⟩

/-- C10, amended: with an entry list present in the store, `addWeightEntry`
first normalizes it (dropping undateable rows and persisting the shrunken list
when rows were dropped — the one write that can precede the throw); a new
entry whose date string equals a normalized stored date is rejected with
`'An entry for this date already exists'` and nothing further is written (in
particular the stored list is untouched whenever no row was dropped);
otherwise the entry is appended and the whole series is re-derived and
persisted. -/
theorem C10_amended (now : ℤ) (st : Store) (stored : List WeightEntry)
    (entry : NewEntryInput) (hst : st.weightEntries = some stored) :
    ((normalizeStoredEntries now stored).any (fun e => e.date == entry.date) = true →
      (addWeightEntry now st entry).1 =
        .error "An entry for this date already exists" ∧
      (addWeightEntry now st entry).2.weightEntries =
        (if (normalizeStoredEntries now stored).length ≠ stored.length
          then some (normalizeStoredEntries now stored) else some stored)) ∧
    ((normalizeStoredEntries now stored).any (fun e => e.date == entry.date) = false →
      (addWeightEntry now st entry).1 =
        .ok (recalculateEntries now
          (normalizeStoredEntries now stored ++ [mkNewEntry now entry])) ∧
      (addWeightEntry now st entry).2.weightEntries =
        some (recalculateEntries now
          (normalizeStoredEntries now stored ++ [mkNewEntry now entry]))) := by
  have hg := getStoredEntries_some now st stored hst
  constructor
  · intro hdup
    unfold addWeightEntry
    simp only [hg]
    rw [if_pos hdup]
    refine ⟨rfl, ?_⟩
    rw [updateLastEntryDate_weightEntries]
    by_cases hlen : (normalizeStoredEntries now stored).length ≠ stored.length
    · rw [if_pos hlen, if_pos hlen]
    · rw [if_neg hlen, if_neg hlen]
      exact hst
  · intro hdup
    unfold addWeightEntry
    simp only [hg]
    rw [if_neg (by rw [hdup]; exact Bool.false_ne_true)]
    refine ⟨rfl, ?_⟩
    rw [updateLastEntryDate_weightEntries]

/-- C10, witness: the amended theorem at a concrete clean store — the
duplicate is rejected and the store, needing no normalization, is unchanged. -/
theorem C10_amended_witness :
    (addWeightEntry 0 ⟨some [⟨"2025-01-05", "Sunday", 100, 0, 0, 0, none⟩], none⟩
        ⟨"2025-01-05", "Sunday", 98, none⟩).1 =
      .error "An entry for this date already exists" ∧
    (addWeightEntry 0 ⟨some [⟨"2025-01-05", "Sunday", 100, 0, 0, 0, none⟩], none⟩
        ⟨"2025-01-05", "Sunday", 98, none⟩).2.weightEntries =
      (if (normalizeStoredEntries 0
            [⟨"2025-01-05", "Sunday", 100, 0, 0, 0, none⟩]).length ≠
          [(⟨"2025-01-05", "Sunday", 100, 0, 0, 0, none⟩ : WeightEntry)].length
        then some (normalizeStoredEntries 0
          [⟨"2025-01-05", "Sunday", 100, 0, 0, 0, none⟩])
        else some [⟨"2025-01-05", "Sunday", 100, 0, 0, 0, none⟩]) :=
  (C10_amended 0 _ [⟨"2025-01-05", "Sunday", 100, 0, 0, 0, none⟩]
    ⟨"2025-01-05", "Sunday", 98, none⟩ rfl).1 (by decide)

/-! ### Best-day lemmas -/

/-- The `bestDay` reduction keeps the running minimum, never exceeds any
element or its seed, and either returns its seed untouched or the first
element that strictly undercut everything before it. -/
lemma foldl_bestDayStep (s : List (WeightEntry × ℤ)) (b0 : BestDay) :
    (s.foldl bestDayStep b0).loss ≤ b0.loss ∧
    (∀ e ∈ s, (s.foldl bestDayStep b0).loss ≤ e.1.dailyChange) ∧
    (s.foldl bestDayStep b0 = b0 ∨
      ∃ i, i < s.length ∧
        (s.foldl bestDayStep b0).date = (s.getD i default).1.date ∧
        (s.foldl bestDayStep b0).loss = (s.getD i default).1.dailyChange ∧
        (s.getD i default).1.dailyChange < b0.loss ∧
        ∀ j, j < i →
          (s.foldl bestDayStep b0).loss < (s.getD j default).1.dailyChange) := by
  induction s generalizing b0 with
  | nil => exact ⟨le_refl _, by simp, Or.inl rfl⟩
  | cons e rest ih =>
    simp only [List.foldl_cons]
    by_cases hlt : e.1.dailyChange < b0.loss
    · have hb1 : bestDayStep b0 e = ⟨e.1.date, e.1.dailyChange⟩ := by
        unfold bestDayStep
        rw [if_pos hlt]
      rw [hb1]
      obtain ⟨ih1, ih2, ih3⟩ := ih ⟨e.1.date, e.1.dailyChange⟩
      refine ⟨le_trans ih1 (le_of_lt hlt), ?_, ?_⟩
      · intro x hx
        rcases List.mem_cons.mp hx with hxe | hx
        · subst hxe
          exact ih1
        · exact ih2 x hx
      · rcases ih3 with hre | ⟨i, hi, hde, hlo, hlt2, hstrict⟩
        · right
          refine ⟨0, by simp, ?_, ?_, hlt, fun j hj => absurd hj (Nat.not_lt_zero j)⟩
          · rw [hre]
            rfl
          · rw [hre]
            rfl
        · right
          refine ⟨i + 1, by simpa using Nat.succ_lt_succ hi, hde, hlo, lt_trans hlt2 hlt, ?_⟩
          intro j hj
          cases j with
          | zero =>
            rw [hlo]
            exact hlt2
          | succ j' => exact hstrict j' (by omega)
    · have hb1 : bestDayStep b0 e = b0 := by
        unfold bestDayStep
        rw [if_neg hlt]
      rw [hb1]
      obtain ⟨ih1, ih2, ih3⟩ := ih b0
      refine ⟨ih1, ?_, ?_⟩
      · intro x hx
        rcases List.mem_cons.mp hx with hxe | hx
        · subst hxe
          exact le_trans ih1 (not_lt.mp hlt)
        · exact ih2 x hx
      · rcases ih3 with hre | ⟨i, hi, hde, hlo, hlt2, hstrict⟩
        · exact Or.inl hre
        · right
          refine ⟨i + 1, by simpa using Nat.succ_lt_succ hi, hde, hlo, hlt2, ?_⟩
          intro j hj
          cases j with
          | zero =>
            rw [hlo]
            exact lt_of_lt_of_le hlt2 (not_lt.mp hlt)
          | succ j' => exact hstrict j' (by omega)

/-- When every date parses, the pairing filter of `calculateStatistics` keeps
every entry, in order. -/
lemma statsPairs_map_fst (now : ℤ) (l : List WeightEntry)
    (hp : ∀ e ∈ l, parseDateFlexible now none (.vStr e.date) ≠ none) :
    (l.filterMap (statsPair now)).map Prod.fst = l := by
  induction l with
  | nil => rfl
  | cons e rest ih =>
    obtain ⟨te, hte⟩ :=
      Option.ne_none_iff_exists.mp (hp e (List.mem_cons_self e rest))
    rw [List.filterMap_cons]
    have hpe : statsPair now e = some (e, te) := by
      unfold statsPair
      rw [← hte]
      rfl
    rw [hpe, List.map_cons, ih fun x hx => hp x (List.mem_cons_of_mem e hx)]

/-- On an already chronologically sorted, fully parseable series, the sort
inside `calculateStatistics` is the identity on the paired list. -/
lemma statsSorted_eq_filterMap (now : ℤ) (l : List WeightEntry)
    (hpw : l.Pairwise (fun a b => entryGt now a b = false)) :
    statsSorted now l = l.filterMap (statsPair now) := by
  unfold statsSorted
  apply jsSortBy_fixpoint
  rw [List.pairwise_filterMap]
  refine hpw.imp ?_
  intro a b hab x hx y hy
  unfold statsPair at hx hy
  rw [Option.mem_def, Option.map_eq_some'] at hx hy
  obtain ⟨ta, hta, hxa⟩ := hx
  obtain ⟨tb, htb, hyb⟩ := hy
  have ha : entryTime now a.date = some ta := by
    unfold entryTime
    rw [hta]
  have hb : entryTime now b.date = some tb := by
    unfold entryTime
    rw [htb]
  unfold entryGt at hab
  rw [ha, hb] at hab
  rw [← hxa, ← hyb]
  exact hab

lemma getD_mem_of_lt (l : List α) (j : ℕ) (d : α) (hj : j < l.length) :
    l.getD j d ∈ l := by
  rw [List.getD_eq_getElem l d hj]
  exact List.getElem_mem hj

/-- C9: on a fully derived, fully parseable series, `bestDay` is the first
entry of the sorted series attaining the minimum `dailyChange` — its loss is
a lower bound of every entry's `dailyChange` and every strictly earlier entry
sits strictly above it. -/
theorem C9_best_day (now : ℤ) (entries : List WeightEntry) (t : TargetData)
    (raw : List WeightEntry) (stats : Statistics)
    (hderived : entries = recalculateEntries now raw)
    (hparse : ∀ e ∈ entries, parseDateFlexible now none (.vStr e.date) ≠ none)
    (hok : calculateStatistics now entries t = .ok stats) :
    ∃ i, i < (statsSorted now entries).length ∧
      stats.performance.bestDay.date =
        ((statsSorted now entries).getD i default).1.date ∧
      stats.performance.bestDay.loss =
        ((statsSorted now entries).getD i default).1.dailyChange ∧
      (∀ j, j < (statsSorted now entries).length →
        stats.performance.bestDay.loss ≤
          ((statsSorted now entries).getD j default).1.dailyChange) ∧
      (∀ j, j < i →
        stats.performance.bestDay.loss <
          ((statsSorted now entries).getD j default).1.dailyChange) := by
  unfold calculateStatistics at hok
  by_cases h0 : entries.length = 0
  · rw [if_pos h0] at hok
    cases hok
  rw [if_neg h0] at hok
  split at hok
  · cases hok
  · rename_i e0 rest heq
    split at hok
    · cases hok
    · rename_i projMs hadd
      rw [Except.ok.injEq] at hok
      have hbd : stats.performance.bestDay =
          (e0 :: rest).foldl bestDayStep
            ⟨if e0.1.date == "" then t.startDate else e0.1.date, 0⟩ := by
        rw [← hok]
      have hne : entries ≠ [] := fun hc => h0 (by rw [hc]; rfl)
      have hraw : raw ≠ [] := by
        intro hc
        rw [hc] at hderived
        exact hne (by rw [hderived]; rfl)
      have hpw : entries.Pairwise (fun a b => entryGt now a b = false) := by
        rw [hderived]
        exact pairwise_entryGt_of_map_date now
          (deriveList_map_date now none (sortEntries now raw))
          (jsSortBy_pairwise _ (entryGt_asymm now) (entryGt_str now) raw)
      have hfix : statsSorted now entries = entries.filterMap (statsPair now) :=
        statsSorted_eq_filterMap now entries hpw
      have hmapfst : (e0 :: rest).map Prod.fst = entries := by
        rw [← heq, hfix]
        exact statsPairs_map_fst now entries hparse
      have hheadfst : entries.headD default = e0.1 := by
        rw [← hmapfst]
        rfl
      have hdc0 : e0.1.dailyChange = 0 := by
        have hz := (recalculateEntries_headD now raw hraw).2.2.2
        rw [← hderived] at hz
        rw [hheadfst] at hz
        exact hz
      have hmem0 : e0.1 ∈ entries := by
        rw [← hmapfst]
        exact List.mem_map_of_mem Prod.fst (List.mem_cons_self e0 rest)
      have hd0 : (e0.1.date == "") = false := by
        rw [beq_eq_false_iff_ne]
        intro hc
        apply hparse e0.1 hmem0
        rw [hc]
        rfl
      obtain ⟨f1, f2, f3⟩ := foldl_bestDayStep (e0 :: rest)
        ⟨if e0.1.date == "" then t.startDate else e0.1.date, 0⟩
      rw [heq]
      rcases f3 with hre | ⟨i, hi, hde, hlo, hlt0, hstrict⟩
      · refine ⟨0, by simp, ?_, ?_, ?_, fun j hj => absurd hj (Nat.not_lt_zero j)⟩
        · rw [hbd, hre]
          show (if e0.1.date == "" then t.startDate else e0.1.date) = e0.1.date
          rw [hd0]
          rfl
        · rw [hbd, hre]
          show (0 : ℚ) = ((e0 :: rest).getD 0 default).1.dailyChange
          rw [show (e0 :: rest).getD 0 default = e0 from rfl, hdc0]
        · intro j hj
          rw [hbd]
          exact f2 _ (getD_mem_of_lt (e0 :: rest) j default hj)
      · refine ⟨i, hi, ?_, ?_, ?_, ?_⟩
        · rw [hbd]
          exact hde
        · rw [hbd]
          exact hlo
        · intro j hj
          rw [hbd]
          exact f2 _ (getD_mem_of_lt (e0 :: rest) j default hj)
        · intro j hj
          rw [hbd]
          exact hstrict j hj

/-- A concrete one-entry derived series for exercising the best-day theorem. -/
def C9entries : List WeightEntry :=
  recalculateEntries 0 [⟨"2025-01-01", "Wednesday", 100, 5, 5, 5, none⟩]

/-- A concrete goal for exercising the best-day theorem. -/
def C9target : TargetData := ⟨"2025-01-01", 100, "2025-07-01", 80, 181, 20, 170⟩

/-- The statistics snapshot of the concrete series. -/
def C9stats : Statistics :=
  ((calculateStatistics 0 C9entries C9target).toOption).getD default

/-- C9, witness: the best-day theorem applied to the concrete derived series —
its `bestDay.loss` really is a lower bound of the sorted series' daily
changes. -/
theorem C9_best_day_witness :
    C9stats.performance.bestDay.loss ≤
      ((statsSorted 0 C9entries).getD 0 default).1.dailyChange := by
  have hE : C9entries = [⟨"2025-01-01", "Wednesday", 100, 0, 0, 0, none⟩] := by rfl
  have hparse : ∀ e ∈ C9entries,
      parseDateFlexible 0 none (.vStr e.date) ≠ none := by
    intro e he
    rw [hE] at he
    rw [List.mem_singleton.mp he]
    intro hcon
    rw [show parseDateFlexible 0 none (.vStr "2025-01-01") = some 1735689600000
      from rfl] at hcon
    cases hcon
  have hOk : (calculateStatistics 0 C9entries C9target).isOk = true := by
    rw [hE]
    unfold calculateStatistics
    rw [if_neg (by simp)]
    have hs : statsSorted 0 [⟨"2025-01-01", "Wednesday", 100, 0, 0, 0, none⟩] =
        [(⟨"2025-01-01", "Wednesday", 100, 0, 0, 0, none⟩, 1735689600000)] := by rfl
    rw [hs]
    have hp1 : parseDateFlexible 0 none (.vStr "2025-01-01") = some 1735689600000 := by
      rfl
    have hp2 : parseDateFlexible 0 none (.vStr "2025-07-01") = some 1751328000000 := by
      rfl
    norm_num [C9target, hp1, hp2, statsLast, statsDaysNeeded, statsDailyAvg,
      statsDaysElapsed, statsStartDate, differenceInDays, addDaysChecked, msBound,
      max_def]
    rfl
  have hlen0 : 0 < (statsSorted 0 C9entries).length := by
    rw [hE]
    rw [show statsSorted 0 [⟨"2025-01-01", "Wednesday", 100, 0, 0, 0, none⟩] =
        [(⟨"2025-01-01", "Wednesday", 100, 0, 0, 0, none⟩, 1735689600000)] from rfl]
    simp
  cases hres : calculateStatistics 0 C9entries C9target with
  | error e =>
    rw [hres] at hOk
    exact Bool.noConfusion hOk
  | ok s =>
    have hok2 : calculateStatistics 0 C9entries C9target = .ok C9stats := by
      rw [hres]
      unfold C9stats
      rw [hres]
      rfl
    obtain ⟨i, hi, hde, hlo, hmin, hstrict⟩ :=
      C9_best_day 0 C9entries C9target
        [⟨"2025-01-01", "Wednesday", 100, 5, 5, 5, none⟩] C9stats rfl hparse hok2
    exact hmin 0 hlen0

end Weightwatch
